import Mathlib

/-!
Verification of the jeet_tracker wallet-surveillance service.

This file shallow-embeds the data model and the operations of the
repository (TypeScript) in Lean 4 and proves properties of the embedded
code.  Conventions used throughout:

* JavaScript `Map` objects are modelled as association lists
  (`List (key × value)`): `mapSet` overwrites in place keeping insertion
  order, like `Map.set`; `lookupMap` is `Map.get`; `eraseKey` is
  `Map.delete`.
* JavaScript `Set` objects are modelled as duplicate-free lists in
  insertion order: `addSet` is `Set.add`.
* `bigint` satoshi/token amounts are modelled as `Int` (the decimal-string
  parsing of indexer documents is outside the modelled fragment, so the
  numeric fields of documents are `Int` directly); block heights are `Nat`;
  Telegram chat ids are `Int`; `Date` timestamps are `Int` milliseconds.
* The `txid:vout` string keys of the in-memory UTXO map are modelled as
  `String × Nat` pairs (the code builds and splits these strings in a
  matching way, and txids contain no colon).
-/

set_option maxRecDepth 2000

-- ─── Generic association-list maps and insertion-ordered sets ────────────────

/-- JS `Set.add`: append the element unless already present. -/
def addSet [DecidableEq α] (s : List α) (x : α) : List α :=
  if x ∈ s then s else s ++ [x]

/-- JS `Map.get`: value of the first (unique) binding of the key. -/
def lookupMap [DecidableEq α] (m : List (α × β)) (k : α) : Option β :=
  (m.find? (fun p => decide (p.1 = k))).map (·.2)

/-- JS `Map.set`: overwrite the binding in place, else append. -/
def mapSet [DecidableEq α] : List (α × β) → α → β → List (α × β)
  | [], k, v => [(k, v)]
  | p :: rest, k, v => if p.1 = k then (k, v) :: rest else p :: mapSet rest k v

/-- JS `Map.delete`. -/
def eraseKey [DecidableEq α] (m : List (α × β)) (k : α) : List (α × β) :=
  m.filter (fun p => decide (p.1 ≠ k))

-- ─── Database.ts: the JSON document store ────────────────────────────────────

/-- Resolved linked-address bundle stored on a subscription
(`LinkedAddresses` in Database.ts; the poller additionally persists
`tweakedPubkey` and `p2op`, so they are included here). -/
structure LinkedAddresses where
  mldsaHash : Option String := none
  tweakedPubkey : Option String := none
  p2op : Option String := none
  p2tr : Option String := none
  p2wpkh : Option String := none
  p2pkh : Option String := none
  csv1 : Option String := none
deriving DecidableEq, Repr

/-- `StoredUTXO` of Database.ts (`value` is a decimal string in JSON;
modelled as the integer it denotes). -/
structure StoredUTXO where
  txid : String
  vout : Nat
  value : Int
deriving DecidableEq, Repr

/-- `Subscription` of Database.ts (the `createdAt` ISO string is carried
verbatim and never branched on; it is modelled as an opaque `String`). -/
structure Subscription where
  id : String
  chatId : Int
  address : String
  label : String
  createdAt : String := ""
  linkedAddresses : Option LinkedAddresses := none
deriving DecidableEq, Repr

/-- The `Store` record of Database.ts.  `utxos` and `tokenContracts` are
string-keyed records, modelled as association lists. -/
structure Store where
  subscriptions : List Subscription := []
  lastProcessedBlock : Option Nat := none
  tokenContracts : List (String × List String) := []
  fullyScannedAddresses : List String := []
  utxos : List (String × List StoredUTXO) := []
  authorizedChats : List Int := []
deriving DecidableEq, Repr

-- ─── WalletRepository.ts ─────────────────────────────────────────────────────

/-- `WalletRepository.addSubscription` result. -/
inductive AddResult where
  | added
  | duplicate
  | limitExceeded
deriving DecidableEq, Repr

/-- `WalletRepository.addSubscription` (the random 8-char id is passed in
as `newId`; the `createdAt` timestamp as `createdAt`). -/
def addSubscription (store : Store) (chatId : Int) (address label : String)
    (maxPerUser : Nat) (newId createdAt : String) : Store × AddResult :=
  let userSubs := store.subscriptions.filter (fun s => decide (s.chatId = chatId))
  if maxPerUser ≤ userSubs.length then (store, .limitExceeded)
  else if userSubs.any (fun s => decide (s.address = address)) then (store, .duplicate)
  else ({ store with subscriptions :=
            store.subscriptions ++ [⟨newId, chatId, address, label, createdAt, none⟩] },
        .added)

/-- `WalletRepository.getAllTrackedAddresses`: distinct subscription
addresses in first-seen order (the JS `Set` union). -/
def getAllTrackedAddresses (store : Store) : List String :=
  store.subscriptions.foldl (fun acc s => addSet acc s.address) []

/-- `WalletRepository.getChatIdsForAddress`. -/
def getChatIdsForAddress (store : Store) (address : String) : List (Int × String) :=
  (store.subscriptions.filter (fun s => decide (s.address = address))).map
    (fun s => (s.chatId, s.label))

/-- `WalletRepository.addTokenContract` (the returned boolean is unused by
the poller and dropped here). -/
def addTokenContract (store : Store) (walletAddress contractAddress : String) : Store :=
  let existing := (lookupMap store.tokenContracts walletAddress).getD []
  if contractAddress ∈ existing then store
  else
    let tc := mapSet store.tokenContracts walletAddress (existing ++ [contractAddress])
    { store with tokenContracts := tc }

/-- `WalletRepository.setLastProcessedBlock`. -/
def setLastProcessedBlock (store : Store) (height : Nat) : Store :=
  { store with lastProcessedBlock := some height }

/-- `WalletRepository.buildUTXOMap`: lookup map
(txid, vout) ↦ (primaryAddress, value) over all stored lists. -/
def buildUTXOMap (store : Store) : List ((String × Nat) × (String × Int)) :=
  store.utxos.foldl
    (fun acc p => p.2.foldl
      (fun acc u => mapSet acc (u.txid, u.vout) (p.1, u.value)) acc) []

/-- `WalletRepository.addUTXO`: record a received UTXO under a canonical
primary address, skipping if the key is already in that address's list. -/
def addUTXO (store : Store) (primaryAddress txid : String) (vout : Nat) (value : Int) :
    Store :=
  let list := (lookupMap store.utxos primaryAddress).getD []
  if list.any (fun u => decide (u.txid = txid ∧ u.vout = vout)) then store
  else
    let us := mapSet store.utxos primaryAddress (list ++ [⟨txid, vout, value⟩])
    { store with utxos := us }

/-- `WalletRepository.removeUTXO`: delete the (txid, vout) key from every
address's list (the source iterates all keys of the record and filters
each list). -/
def removeUTXO (store : Store) (txid : String) (vout : Nat) : Store :=
  { store with utxos :=
      store.utxos.map (fun p =>
        (p.1, p.2.filter (fun u => decide (¬ (u.txid = txid ∧ u.vout = vout))))) }

/-- `WalletRepository.setUTXOs`: bulk-overwrite the list stored for one
primary address (initial seeding). -/
def setUTXOs (store : Store) (primaryAddress : String) (utxos : List StoredUTXO) : Store :=
  { store with utxos := mapSet store.utxos primaryAddress utxos }

/-- Linkage update written by `setLinkedFirst`: the source finds the first
subscription with the given address and mutates its `linkedAddresses`. -/
def setLinkedFirst : List Subscription → String → LinkedAddresses → List Subscription
  | [], _, _ => []
  | s :: rest, a, l =>
    if s.address = a then { s with linkedAddresses := some l } :: rest
    else s :: setLinkedFirst rest a l

/-- `WalletRepository.updateLinkedAddresses`. -/
def updateLinkedAddresses (store : Store) (primaryAddress : String)
    (linked : LinkedAddresses) : Store :=
  { store with subscriptions := setLinkedFirst store.subscriptions primaryAddress linked }

/-- `WalletRepository.getLinkedAddressesFor`. -/
def getLinkedAddressesFor (store : Store) (address : String) : Option LinkedAddresses :=
  (store.subscriptions.find? (fun s => decide (s.address = address))).bind
    (·.linkedAddresses)

/-- `WalletRepository.findSubscriptionByMldsaHash`: first subscription
whose linkage carries the hash, or whose address is literally 0x‑hash. -/
def findSubscriptionByMldsaHash (store : Store) (mldsaHash : String) :
    Option Subscription :=
  store.subscriptions.find? (fun s =>
    decide ((s.linkedAddresses.bind (·.mldsaHash)) = some mldsaHash
      ∨ s.address = "0x" ++ mldsaHash))

/-- `WalletRepository.getExpandedAddressData`: returns
(trackedSet, mldsaMap, canonicalMap). -/
def getExpandedAddressData (store : Store) :
    List String × List (String × String) × List (String × String) :=
  let r := store.subscriptions.foldl
    (fun (acc : List String × List (String × String) × List (String × String) × List String) sub =>
      let (trackedSet, mldsaMap, canonicalMap, seenPrimaries) := acc
      let primary := sub.address
      let trackedSet := addSet trackedSet primary
      if primary ∈ seenPrimaries then (trackedSet, mldsaMap, canonicalMap, seenPrimaries)
      else
        let seenPrimaries := seenPrimaries ++ [primary]
        match sub.linkedAddresses with
        | none => (trackedSet, mldsaMap, canonicalMap, seenPrimaries)
        | some linked =>
          let mldsaMap := match linked.mldsaHash with
            | some h => mapSet mldsaMap primary h
            | none => mldsaMap
          let step := fun (acc2 : List String × List (String × String)) (extra : Option String) =>
            match extra with
            | some e => if e ≠ primary then (addSet acc2.1 e, mapSet acc2.2 e primary) else acc2
            | none => acc2
          let (trackedSet, canonicalMap) :=
            [linked.p2tr, linked.p2wpkh, linked.p2pkh, linked.csv1].foldl step
              (trackedSet, canonicalMap)
          (trackedSet, mldsaMap, canonicalMap, seenPrimaries))
    ([], [], [], [])
  (r.1, r.2.1, r.2.2.1)

-- ─── SubscriptionRepository.ts ───────────────────────────────────────────────

/-- `AccessCodeDoc` (payment metadata `paymentMethod`/`amount` is carried
verbatim and never branched on; it is omitted). -/
structure AccessCodeDoc where
  code : String
  walletAddress : String
  txHash : String
  used : Bool
  redeemedBy : Option Int := none
  createdAt : Int
  codeExpiresAt : Int
  subscriptionDays : Int
deriving DecidableEq, Repr

/-- `PaidSubscriptionDoc`. -/
structure PaidSubscriptionDoc where
  chatId : Int
  walletAddress : String
  txHash : String
  expiresAt : Int
  createdAt : Int
deriving DecidableEq, Repr

/-- The two collections managed by SubscriptionRepository (modelled after
`init` has run, so the not-initialized early return does not arise). -/
structure SubsState where
  accessCodes : List AccessCodeDoc := []
  paidSubs : List PaidSubscriptionDoc := []
deriving DecidableEq, Repr

/-- Error messages returned by `redeemCode`, as an enumeration. -/
inductive RedeemError where
  | invalidCode
  | alreadyRedeemed
  | codeExpired
deriving DecidableEq, Repr

/-- Result of `redeemCode`. -/
inductive RedeemResult where
  | success (expiresAt : Int) (walletAddress : String)
  | failure (error : RedeemError)
deriving DecidableEq, Repr

/-- `findOne on access_codes by code` (unique index on `code`; the first
match is both what `findOne` and `updateOne` touch). -/
def findCode (codes : List AccessCodeDoc) (code : String) : Option AccessCodeDoc :=
  codes.find? (fun d => decide (d.code = code))

/-- The `updateOne` marking a code used and recording the redeeming chat. -/
def markUsed : List AccessCodeDoc → String → Int → List AccessCodeDoc
  | [], _, _ => []
  | d :: rest, code, chat =>
    if d.code = code then { d with used := true, redeemedBy := some chat } :: rest
    else d :: markUsed rest code chat

/-- The `updateOne … upsert` on `subscriptions_paid`: `$set` replaces every
field of the (unique) document for the chat, or inserts a fresh one. -/
def upsertPaid : List PaidSubscriptionDoc → Int → String → String → Int → Int →
    List PaidSubscriptionDoc
  | [], chatId, w, t, expiresAt, now => [⟨chatId, w, t, expiresAt, now⟩]
  | p :: rest, chatId, w, t, expiresAt, now =>
    if p.chatId = chatId then ⟨chatId, w, t, expiresAt, now⟩ :: rest
    else p :: upsertPaid rest chatId w t expiresAt now

/-- Milliseconds in a day (`24 * 60 * 60 * 1000`). -/
def msPerDay : Int := 86400000

/-- `SubscriptionRepository.redeemCode` (`now` is the current time in
milliseconds; the code compares `new Date() > doc.codeExpiresAt`). -/
def redeemCode (s : SubsState) (code : String) (chatId : Int) (now : Int) :
    RedeemResult × SubsState :=
  match findCode s.accessCodes code with
  | none => (.failure .invalidCode, s)
  | some doc =>
    if doc.used then (.failure .alreadyRedeemed, s)
    else if doc.codeExpiresAt < now then (.failure .codeExpired, s)
    else
      let codes := markUsed s.accessCodes code chatId
      let expiresAt := now + doc.subscriptionDays * msPerDay
      let paid := upsertPaid s.paidSubs chatId doc.walletAddress doc.txHash expiresAt now
      (.success expiresAt doc.walletAddress, { accessCodes := codes, paidSubs := paid })

/-- `SubscriptionRepository.hasActiveSubscription`. -/
def hasActiveSubscription (paidSubs : List PaidSubscriptionDoc) (now : Int)
    (chatId : Int) : Bool :=
  match paidSubs.find? (fun d => decide (d.chatId = chatId)) with
  | some doc => decide (now < doc.expiresAt)
  | none => false

/-- `findOne on subscriptions_paid by chatId` (`getSubscription`). -/
def findPaid (paidSubs : List PaidSubscriptionDoc) (chatId : Int) :
    Option PaidSubscriptionDoc :=
  paidSubs.find? (fun d => decide (d.chatId = chatId))

-- ─── TxParser.ts: wallet events ──────────────────────────────────────────────

/-- The `'in' | 'out'` direction strings. -/
inductive Dir where
  | dirIn
  | dirOut
deriving DecidableEq, Repr

/-- The `'buyer' | 'seller'` role strings of liquidity reservations. -/
inductive Role where
  | buyer
  | seller
deriving DecidableEq, Repr

/-- The `WalletEvent` tagged union (TxParser.ts together with the pool and
staking variants produced by the poller's matchers).  Optional fields are
`Option`s, mirroring the conditional spreads that include them. -/
inductive WalletEvent where
  | btc_received (txHash : String) (blockHeight : Nat) (address : String)
      (satoshis : Int) (counterparty : Option String)
  | btc_sent (txHash : String) (blockHeight : Nat) (address : String)
      (satoshis : Int) (counterparty : Option String) (recipientAmount : Option Int)
  | token (txHash : String) (blockHeight : Nat) (address : String) (direction : Dir)
      (contractAddress : String) (value : Int) (counterparty : String)
  | nft_transfer (txHash : String) (blockHeight : Nat) (address : String)
      (direction : Dir) (contractAddress : String) (amount : Int) (counterparty : String)
  | liquidity_reserved (txHash : String) (blockHeight : Nat) (address : String)
      (contractAddress : String) (satoshis : Int) (tokenAmount : Int) (role : Role)
  | provider_consumed (txHash : String) (blockHeight : Nat) (address : String)
      (contractAddress : String) (tokenAmount : Int)
  | swap_executed (txHash : String) (blockHeight : Nat) (address : String)
      (contractAddress : String) (btcSpent : Int) (tokensReceived : Int)
  | liquidity_added (txHash : String) (blockHeight : Nat) (address : String)
      (contractAddress : String) (tokenAmount : Int) (tokenAmount2 : Option Int)
      (btcAmount : Option Int)
  | liquidity_removed (txHash : String) (blockHeight : Nat) (address : String)
      (contractAddress : String) (tokenAmount : Int) (tokenAmount2 : Option Int)
      (btcAmount : Option Int)
  | staked (txHash : String) (blockHeight : Nat) (address : String)
      (contractAddress : String) (amount : Int)
  | unstaked (txHash : String) (blockHeight : Nat) (address : String)
      (contractAddress : String) (amount : Int)
  | rewards_claimed (txHash : String) (blockHeight : Nat) (address : String)
      (contractAddress : String) (amount : Int)
deriving DecidableEq, Repr

/-- The `ev.type` discriminator string. -/
def WalletEvent.etype : WalletEvent → String
  | .btc_received .. => "btc_received"
  | .btc_sent .. => "btc_sent"
  | .token .. => "token"
  | .nft_transfer .. => "nft_transfer"
  | .liquidity_reserved .. => "liquidity_reserved"
  | .provider_consumed .. => "provider_consumed"
  | .swap_executed .. => "swap_executed"
  | .liquidity_added .. => "liquidity_added"
  | .liquidity_removed .. => "liquidity_removed"
  | .staked .. => "staked"
  | .unstaked .. => "unstaked"
  | .rewards_claimed .. => "rewards_claimed"

/-- The common `ev.txHash` field. -/
def WalletEvent.txHash : WalletEvent → String
  | .btc_received t .. => t
  | .btc_sent t .. => t
  | .token t .. => t
  | .nft_transfer t .. => t
  | .liquidity_reserved t .. => t
  | .provider_consumed t .. => t
  | .swap_executed t .. => t
  | .liquidity_added t .. => t
  | .liquidity_removed t .. => t
  | .staked t .. => t
  | .unstaked t .. => t
  | .rewards_claimed t .. => t

/-- The common `ev.blockHeight` field. -/
def WalletEvent.blockHeight : WalletEvent → Nat
  | .btc_received _ h .. => h
  | .btc_sent _ h .. => h
  | .token _ h .. => h
  | .nft_transfer _ h .. => h
  | .liquidity_reserved _ h .. => h
  | .provider_consumed _ h .. => h
  | .swap_executed _ h .. => h
  | .liquidity_added _ h .. => h
  | .liquidity_removed _ h .. => h
  | .staked _ h .. => h
  | .unstaked _ h .. => h
  | .rewards_claimed _ h .. => h

/-- The common `ev.address` field. -/
def WalletEvent.address : WalletEvent → String
  | .btc_received _ _ a .. => a
  | .btc_sent _ _ a .. => a
  | .token _ _ a .. => a
  | .nft_transfer _ _ a .. => a
  | .liquidity_reserved _ _ a .. => a
  | .provider_consumed _ _ a .. => a
  | .swap_executed _ _ a .. => a
  | .liquidity_added _ _ a .. => a
  | .liquidity_removed _ _ a .. => a
  | .staked _ _ a .. => a
  | .unstaked _ _ a .. => a
  | .rewards_claimed _ _ a .. => a

/-- The `'contractAddress' in ev` projection used by the dedup key. -/
def WalletEvent.contractOf : WalletEvent → Option String
  | .btc_received .. => none
  | .btc_sent .. => none
  | .token _ _ _ _ c .. => some c
  | .nft_transfer _ _ _ _ c .. => some c
  | .liquidity_reserved _ _ _ c .. => some c
  | .provider_consumed _ _ _ c .. => some c
  | .swap_executed _ _ _ c .. => some c
  | .liquidity_added _ _ _ c .. => some c
  | .liquidity_removed _ _ _ c .. => some c
  | .staked _ _ _ c .. => some c
  | .unstaked _ _ _ c .. => some c
  | .rewards_claimed _ _ _ c .. => some c

/-- The `'direction' in ev` projection (present on token and NFT
transfers only). -/
def WalletEvent.directionOf : WalletEvent → Option Dir
  | .token _ _ _ d .. => some d
  | .nft_transfer _ _ _ d .. => some d
  | _ => none

/-- Whether the event is `btc_sent` or `btc_received`. -/
def WalletEvent.isBtc : WalletEvent → Bool
  | .btc_sent .. => true
  | .btc_received .. => true
  | _ => false

-- ─── TxParser.ts: block scanning (BTC passes) ────────────────────────────────

/-- `scriptPubKey` of a transaction output or input. -/
structure ScriptPubKey where
  address : Option String := none
  addresses : Option (List String) := none
deriving DecidableEq, Repr

/-- A transaction output as read from the block
(`value` is the bigint branch of the satoshi conversion). -/
structure TxOutput where
  scriptPubKey : ScriptPubKey
  value : Int
  index : Nat
deriving DecidableEq, Repr

/-- A raw transaction input (`RawInput` in TxParser.ts). -/
structure TxInput where
  originalTransactionId : Option String := none
  outputTransactionIndex : Option Nat := none
  address : Option String := none
  scriptPubKey : Option ScriptPubKey := none
deriving DecidableEq, Repr

/-- A block transaction.  The `events` record (OP-20 / NativeSwap binary
event decoding, TxParser.ts lines 267-396) is independent of the BTC
passes modelled here and is omitted. -/
structure BlockTx where
  hash : String
  inputs : List TxInput := []
  outputs : List TxOutput := []
deriving DecidableEq, Repr

/-- `outputAddress`: `scriptPubKey.address ?? scriptPubKey.addresses?.[0] ?? null`. -/
def outputAddress (spk : ScriptPubKey) : Option String :=
  match spk.address with
  | some a => some a
  | none =>
    match spk.addresses with
    | some l => l.head?
    | none => none

/-- Sender pre-computation: first input exposing an address
(`inp.address ?? inp.scriptPubKey?.address ?? inp.scriptPubKey?.addresses?.[0]`). -/
def txSenderAddr (tx : BlockTx) : Option String :=
  (tx.inputs.findSome? (fun inp =>
    match inp.address with
    | some a => some a
    | none =>
      match inp.scriptPubKey with
      | some spk => outputAddress spk
      | none => none))

/-- Recipient pre-computation: first output whose address exists and is
not tracked, together with its value. -/
def txRecipient (trackedAddresses : List String) (tx : BlockTx) : Option (String × Int) :=
  tx.outputs.findSome? (fun o =>
    match outputAddress o.scriptPubKey with
    | some a => if a ∉ trackedAddresses then some (a, o.value) else none
    | none => none)

/-- The spend-detection pass (input scanning against the UTXO map),
returning the emitted `btc_sent` events and the spent keys. -/
def spendPass (utxoMap : List ((String × Nat) × (String × Int)))
    (trackedAddresses : List String) (blockHeight : Nat) (tx : BlockTx) :
    List WalletEvent × List (String × Nat) :=
  if utxoMap = [] then ([], [])
  else
    let recipient := txRecipient trackedAddresses tx
    tx.inputs.foldl (fun acc input =>
      match input.originalTransactionId, input.outputTransactionIndex with
      | some txid, some vout =>
        match lookupMap utxoMap (txid, vout) with
        | some u =>
          (acc.1 ++ [.btc_sent tx.hash blockHeight u.1 u.2
            (recipient.map (·.1)) (recipient.map (·.2))],
           acc.2 ++ [(txid, vout)])
        | none => acc
      | _, _ => acc) ([], [])

/-- A received UTXO recorded by the scanner (`ReceivedUTXO`). -/
structure ReceivedUTXO where
  primaryAddress : String
  txid : String
  vout : Nat
  value : Int
deriving DecidableEq, Repr

/-- One output of the receive-detection pass: skip outputs without an
address or with an untracked one; otherwise normalise the address through
`canonicalMap` and record both the event and the UTXO. -/
def receiveStep (trackedAddresses : List String)
    (canonicalMap : List (String × String)) (txh : String) (blockHeight : Nat)
    (sender : Option String) (acc : List WalletEvent × List ReceivedUTXO)
    (o : TxOutput) : List WalletEvent × List ReceivedUTXO :=
  match outputAddress o.scriptPubKey with
  | none => acc
  | some addr =>
    if addr ∈ trackedAddresses then
      let canonicalAddr := (lookupMap canonicalMap addr).getD addr
      (acc.1 ++ [.btc_received txh blockHeight canonicalAddr o.value sender],
       acc.2 ++ [⟨canonicalAddr, txh, o.index, o.value⟩])
    else acc

/-- The receive-detection pass: for each output to a tracked address, emit
a `btc_received` normalised through `canonicalMap` and record the UTXO. -/
def receivePass (trackedAddresses : List String) (canonicalMap : List (String × String))
    (blockHeight : Nat) (tx : BlockTx) : List WalletEvent × List ReceivedUTXO :=
  let sender := txSenderAddr tx
  tx.outputs.foldl
    (receiveStep trackedAddresses canonicalMap tx.hash blockHeight sender) ([], [])

/-- One transaction of `parseBlockForAddresses`, restricted to its BTC
passes (spend first, then receive, matching the source order). -/
def parseTxBtc (utxoMap : List ((String × Nat) × (String × Int)))
    (trackedAddresses : List String) (canonicalMap : List (String × String))
    (blockHeight : Nat) (tx : BlockTx) :
    List WalletEvent × List ReceivedUTXO × List (String × Nat) :=
  let (sentEvents, spentKeys) := spendPass utxoMap trackedAddresses blockHeight tx
  let (recvEvents, recvUTXOs) := receivePass trackedAddresses canonicalMap blockHeight tx
  (sentEvents ++ recvEvents, recvUTXOs, spentKeys)

/-- The BTC fragment of `parseBlockForAddresses` over a whole block. -/
def parseBlockBtc (utxoMap : List ((String × Nat) × (String × Int)))
    (trackedAddresses : List String) (canonicalMap : List (String × String))
    (blockHeight : Nat) (txs : List BlockTx) :
    List WalletEvent × List ReceivedUTXO × List (String × Nat) :=
  txs.foldl (fun acc tx =>
    let r := parseTxBtc utxoMap trackedAddresses canonicalMap blockHeight tx
    (acc.1 ++ r.1, acc.2.1 ++ r.2.1, acc.2.2 ++ r.2.2)) ([], [], [])

-- ─── IndexerClient.ts: typed event documents ─────────────────────────────────

/-- Indexer transfer record (numeric strings modelled as `Int`). -/
structure TransferDoc where
  txHash : String
  blockHeight : Nat
  contractAddress : String
  from_ : String
  to_ : String
  value : Int
deriving DecidableEq, Repr

/-- Indexer reservation record. -/
structure ReservationDoc where
  txHash : String
  blockHeight : Nat
  nativeSwapAddress : String
  depositAddress : String := ""
  providerMldsa : String
  buyerAddress : Option String := none
  satoshis : Int
  tokenAmount : Int
deriving DecidableEq, Repr

/-- The `'provider_consumed' | 'swap_executed'` tag of a swap record. -/
inductive SwapDocType where
  | provider_consumed
  | swap_executed
deriving DecidableEq, Repr

/-- Indexer swap record. -/
structure SwapDoc where
  stype : SwapDocType
  txHash : String
  blockHeight : Nat
  nativeSwapAddress : String
  address : String
  tokenAmount : Int
  btcSpent : Option Int := none
deriving DecidableEq, Repr

/-- The `'up' | 'down'` direction of a price change. -/
inductive PriceDir where
  | up
  | down
deriving DecidableEq, Repr

/-- Indexer price-change record (`deltaPct` is a JS number used only in
order comparisons; modelled as `Int`). -/
structure PriceChangeDoc where
  tokenContract : String
  oldPrice : Int
  newPrice : Int
  deltaPct : Int
  direction : PriceDir
  virtualBTCReserve : Int
  virtualTokenReserve : Int
  blockHeight : Nat
deriving DecidableEq, Repr

/-- The `'added' | 'removed'` action of a pool event. -/
inductive PoolAction where
  | added
  | removed
deriving DecidableEq, Repr

/-- Indexer pool-event record. -/
structure PoolEventDoc where
  txHash : String
  blockHeight : Nat
  contractAddress : String
  action : PoolAction
  address : String
  tokenAmount : Int
  tokenAmount2 : Option Int := none
  btcAmount : Option Int := none
deriving DecidableEq, Repr

/-- Indexer staking-event record (`action` is kept as a string because the
poller looks it up in a partial map and skips unknown actions). -/
structure StakingEventDoc where
  txHash : String
  blockHeight : Nat
  contractAddress : String
  action : String
  address : String
  amount : Int
deriving DecidableEq, Repr

/-- The `/events` response body. -/
structure EventsResponse where
  lastIndexedBlock : Nat
  transfers : List TransferDoc := []
  reservations : List ReservationDoc := []
  swaps : List SwapDoc := []
  priceChanges : List PriceChangeDoc := []
  poolEvents : List PoolEventDoc := []
  stakingEvents : List StakingEventDoc := []
deriving DecidableEq, Repr

-- ─── BlockPoller: indexer event matching ─────────────────────────────────────

/-- Hex normalisation used by every matcher: strip a 0x prefix and
lower-case. -/
def normHex (s : String) : String :=
  if s.startsWith "0x" then (s.drop 2).toLower else s.toLower

/-- `BlockPoller.matchTransfers`.  Iterates `mldsaMap` in insertion order;
on match emits a token or NFT transfer and persists the contract via
`addTokenContract`, threading the store. -/
def matchTransfers (store : Store) (transfers : List TransferDoc)
    (mldsaMap : List (String × String)) (nftContractSet : List String) :
    Store × List WalletEvent :=
  transfers.foldl (fun acc t =>
    let fromHex := normHex t.from_
    let toHex := normHex t.to_
    mldsaMap.foldl (fun (acc : Store × List WalletEvent) p =>
      let (btcAddr, mldsaHex) := p
      let isFrom := mldsaHex = fromHex
      let isTo := mldsaHex = toHex
      if ¬ isFrom ∧ ¬ isTo then acc
      else
        let isNft := t.contractAddress ∈ nftContractSet
        let dir := if isFrom then Dir.dirOut else Dir.dirIn
        let cp := "0x" ++ (if isFrom then toHex else fromHex)
        let ev := if isNft then
            WalletEvent.nft_transfer t.txHash t.blockHeight btcAddr dir
              t.contractAddress t.value cp
          else
            WalletEvent.token t.txHash t.blockHeight btcAddr dir
              t.contractAddress t.value cp
        (addTokenContract acc.1 btcAddr t.contractAddress, acc.2 ++ [ev])) acc)
    (store, [])

/-- `BlockPoller.matchReservations`. -/
def matchReservations (reservations : List ReservationDoc)
    (mldsaMap : List (String × String)) (trackedSet : List String)
    (canonicalMap : List (String × String)) : List WalletEvent :=
  reservations.foldl (fun events r =>
    let providerHex := normHex r.providerMldsa
    -- SELLER: match by MLDSA hash first
    let sellerStep := mldsaMap.foldl
      (fun (acc : Bool × List WalletEvent) p =>
        if p.2 = providerHex then
          (true, acc.2 ++ [.liquidity_reserved r.txHash r.blockHeight p.1
            r.nativeSwapAddress r.satoshis r.tokenAmount .seller])
        else acc) (false, events)
    let (sellerMatched, events) := sellerStep
    -- SELLER fallback: direct BTC address match
    let events :=
      if sellerMatched then events
      else
        let canonical :=
          match lookupMap canonicalMap r.providerMldsa with
          | some c => some c
          | none => lookupMap canonicalMap providerHex
        match canonical with
        | some c =>
          if r.providerMldsa ∈ trackedSet then
            events ++ [.liquidity_reserved r.txHash r.blockHeight c
              r.nativeSwapAddress r.satoshis r.tokenAmount .seller]
          else events
        | none => events
    -- BUYER: matched by buyerAddress against MLDSA hashes
    match r.buyerAddress with
    | none => events
    | some buyer =>
      let buyerHex := normHex buyer
      mldsaMap.foldl (fun events p =>
        if p.2 = buyerHex then
          events ++ [.liquidity_reserved r.txHash r.blockHeight p.1
            r.nativeSwapAddress r.satoshis r.tokenAmount .buyer]
        else events) events) []

/-- `BlockPoller.pushSwapEvent`. -/
def pushSwapEvent (events : List WalletEvent) (s : SwapDoc) (btcAddr : String) :
    List WalletEvent :=
  match s.stype with
  | .swap_executed =>
    events ++ [.swap_executed s.txHash s.blockHeight btcAddr s.nativeSwapAddress
      (s.btcSpent.getD 0) s.tokenAmount]
  | .provider_consumed =>
    events ++ [.provider_consumed s.txHash s.blockHeight btcAddr s.nativeSwapAddress
      s.tokenAmount]

/-- `BlockPoller.matchSwaps`. -/
def matchSwaps (swaps : List SwapDoc) (mldsaMap : List (String × String))
    (trackedSet : List String) (canonicalMap : List (String × String)) :
    List WalletEvent :=
  swaps.foldl (fun events s =>
    let addrHex := normHex s.address
    let firstStep := mldsaMap.foldl
      (fun (acc : Bool × List WalletEvent) p =>
        if p.2 = addrHex then (true, pushSwapEvent acc.2 s p.1) else acc)
      (false, events)
    let (matched, events) := firstStep
    if matched then events
    else
      let canonical :=
        match lookupMap canonicalMap s.address with
        | some c => some c
        | none => lookupMap canonicalMap addrHex
      match canonical with
      | some c => if s.address ∈ trackedSet then pushSwapEvent events s c else events
      | none => events) []

/-- `BlockPoller.matchPoolEvents`. -/
def matchPoolEvents (poolEvents : List PoolEventDoc)
    (mldsaMap : List (String × String)) : List WalletEvent :=
  poolEvents.foldl (fun events pe =>
    let addrHex := normHex pe.address
    mldsaMap.foldl (fun events p =>
      if p.2 = addrHex then
        match pe.action with
        | .added => events ++ [.liquidity_added pe.txHash pe.blockHeight p.1
            pe.contractAddress pe.tokenAmount pe.tokenAmount2 pe.btcAmount]
        | .removed => events ++ [.liquidity_removed pe.txHash pe.blockHeight p.1
            pe.contractAddress pe.tokenAmount pe.tokenAmount2 pe.btcAmount]
      else events) events) []

/-- The staking `typeMap` (unknown actions yield `none` and are skipped). -/
def stakingTypeMap (action : String) : Option (String × Unit) :=
  if action = "staked" then some ("staked", ())
  else if action = "unstaked" then some ("unstaked", ())
  else if action = "claimed" then some ("rewards_claimed", ())
  else none

/-- `BlockPoller.matchStakingEvents`. -/
def matchStakingEvents (stakingEvents : List StakingEventDoc)
    (mldsaMap : List (String × String)) : List WalletEvent :=
  stakingEvents.foldl (fun events se =>
    let addrHex := normHex se.address
    mldsaMap.foldl (fun events p =>
      if p.2 = addrHex then
        match stakingTypeMap se.action with
        | none => events
        | some (tag, _) =>
          if tag = "staked" then
            events ++ [.staked se.txHash se.blockHeight p.1 se.contractAddress se.amount]
          else if tag = "unstaked" then
            events ++ [.unstaked se.txHash se.blockHeight p.1 se.contractAddress se.amount]
          else
            events ++ [.rewards_claimed se.txHash se.blockHeight p.1
              se.contractAddress se.amount]
      else events) events) []

-- ─── BlockPoller: pure pipeline steps ────────────────────────────────────────

/-- An `InferredSend` candidate produced by the block scanner (field names
as destructured by the promotion step of `processNewBlocks`). -/
structure InferredSend where
  txHash : String
  blockHeight : Nat
  address : String
  totalSent : Int
  counterparty : Option String := none
  recipientAmount : Option Int := none
deriving DecidableEq, Repr

/-- The `btc_sent` event built from an inferred send by the promotion step. -/
def inferredToBtcSent (inf : InferredSend) : WalletEvent :=
  .btc_sent inf.txHash inf.blockHeight inf.address inf.totalSent
    inf.counterparty inf.recipientAmount

/-- Conditional `Set.add`: add the selected key, if any (the common shape
of the loops building the string-key sets of the pipeline). -/
def addKeyIf (sel : α → Option String) (acc : List String) (x : α) : List String :=
  match sel x with
  | some k => addSet acc k
  | none => acc

/-- Selector of the hashes that already have a confirmed `btc_sent`. -/
def btcSentHashSel : WalletEvent → Option String
  | .btc_sent tx _ _ _ _ _ => some tx
  | _ => none

/-- The set of tx hashes that already have a confirmed `btc_sent` among
the scanner's BTC events. -/
def btcSentHashes (btcEvents : List WalletEvent) : List String :=
  btcEvents.foldl (addKeyIf btcSentHashSel) []

/-- The inferred-send promotion step of `processNewBlocks`: append a
promoted `btc_sent` for every inferred send whose tx hash is not already
covered. -/
def promoteInferredSends (btcEvents : List WalletEvent)
    (allInferredSends : List InferredSend) : List WalletEvent :=
  let hashes := btcSentHashes btcEvents
  allInferredSends.foldl (fun acc inf =>
    if inf.txHash ∈ hashes then acc else acc ++ [inferredToBtcSent inf]) btcEvents

/-- The cross-source dedup key
`type:txHash:address:contract:direction` (joined string modelled as a
tuple; none of the components contains a colon). -/
def dedupKey (ev : WalletEvent) : String × String × String × String × String :=
  (ev.etype, ev.txHash, ev.address, ev.contractOf.getD "",
   match ev.directionOf with
   | some .dirIn => "in"
   | some .dirOut => "out"
   | none => "")

/-- The cross-source deduplication step: keep the first event for each key. -/
def dedupEvents (allEvents : List WalletEvent) : List WalletEvent :=
  (allEvents.foldl
    (fun (acc : List (String × String × String × String × String) × List WalletEvent) ev =>
      if dedupKey ev ∈ acc.1 then acc
      else (acc.1 ++ [dedupKey ev], acc.2 ++ [ev]))
    ([], [])).2

/-- The combined suppression key, literally the template string
address ++ :: ++ blockHeight of the source. -/
def sKey (address : String) (blockHeight : Nat) : String :=
  address ++ "::" ++ toString blockHeight

/-- Selector of the suppression loop over swap events: only
`swap_executed` contributes its key. -/
def swapKeySel : WalletEvent → Option String := fun ev =>
  match ev with
  | .swap_executed .. => some (sKey ev.address ev.blockHeight)
  | _ => none

/-- Selector of the suppression loops that take every event's key
(reservations, pool events, staking events). -/
def allKeySel : WalletEvent → Option String := fun ev =>
  some (sKey ev.address ev.blockHeight)

/-- Selector of the token-direction loops over the transfer matcher's
output: any event carrying the given direction contributes its key. -/
def tokenDirKeySel (d : Dir) : WalletEvent → Option String := fun ev =>
  if ev.directionOf = some d then some (sKey ev.address ev.blockHeight) else none

/-- Selector of the final loop: keys present in both direction sets. -/
def interKeySel (tokenOutKeys : List String) : String → Option String := fun k =>
  if k ∈ tokenOutKeys then some k else none

/-- The BTC-suppression set of `processNewBlocks`: (address, block) keys of
swap_executed swaps, of all reservation, pool and staking events, and of
every key having both an inbound and an outbound entry in the transfer
matcher's output. -/
def buildSuppressSet (swapEvents reservationEvents poolEvents stakingEvents
    tokenEvents : List WalletEvent) : List String :=
  let s := swapEvents.foldl (addKeyIf swapKeySel) []
  let s := reservationEvents.foldl (addKeyIf allKeySel) s
  let s := poolEvents.foldl (addKeyIf allKeySel) s
  let s := stakingEvents.foldl (addKeyIf allKeySel) s
  let tokenInKeys := tokenEvents.foldl (addKeyIf (tokenDirKeySel .dirIn)) []
  let tokenOutKeys := tokenEvents.foldl (addKeyIf (tokenDirKeySel .dirOut)) []
  tokenInKeys.foldl (addKeyIf (interKeySel tokenOutKeys)) s

/-- The BTC-suppression filter (applied only when the set is non-empty,
as in the source). -/
def applySuppression (suppressBtcAddrBlocks : List String)
    (dedupedEvents : List WalletEvent) : List WalletEvent :=
  if suppressBtcAddrBlocks = [] then dedupedEvents
  else dedupedEvents.filter (fun ev =>
    !(ev.isBtc && decide (sKey ev.address ev.blockHeight ∈ suppressBtcAddrBlocks)))

-- ─── BlockPoller: session tx-hash dedup (the bounded notified set) ──────────

/-- `MAX_NOTIFIED_TX_HASHES`. -/
def maxNotifiedTxHashes : Nat := 1000

/-- `Set.add` on the notified-hash session set. -/
def addNotified (s : List String) (h : String) : List String :=
  if h ∈ s then s else s ++ [h]

/-- Pruning of the oldest entries once the session set exceeds the cap
(JS `Set` iterates in insertion order, so the slice of oldest entries is
the prefix and deleting it leaves the suffix). -/
def pruneNotified (s : List String) : List String :=
  if maxNotifiedTxHashes < s.length then s.drop (s.length - maxNotifiedTxHashes) else s

/-- The filter of already-notified events. -/
def filterNotNotified (notified : List String) (dedupedEvents : List WalletEvent) :
    List WalletEvent :=
  dedupedEvents.filter (fun e => decide (e.txHash ∉ notified))

/-- Recording the dispatched hashes, then pruning. -/
def updateNotified (notified : List String) (newEvents : List WalletEvent) :
    List String :=
  pruneNotified (newEvents.foldl (fun s e => addNotified s e.txHash) notified)

/-- The per-tick session-dedup step of `processNewBlocks` (filter, notify,
record, prune), abstracted over the notifier call: returns the events
handed to the notifier and the new session set. -/
def dispatchStep (notified : List String) (dedupedEvents : List WalletEvent) :
    List WalletEvent × List String :=
  let newEvents := filterNotNotified notified dedupedEvents
  if newEvents = [] then ([], notified)
  else (newEvents, updateNotified notified newEvents)

-- ─── Notifier.ts ─────────────────────────────────────────────────────────────

/-- Kinds of outbound Telegram messages (the rendered markdown text is
formatting-only and not modelled; each kind carries the data that selects
its recipient and content). -/
inductive MsgKind where
  | walletNotification (address : String) (txHash : String)
  | expiryNotice
  | priceAlert (tokenContract : String) (deltaPct : Int)
  | scanWarning (blockHeight : Nat)
deriving DecidableEq, Repr

/-- One outbound message: recipient chat and kind. -/
structure Msg where
  chatId : Int
  kind : MsgKind
deriving DecidableEq, Repr

/-- Grouping of events by address::txHash, preserving first-seen group
order and within-group order (JS `Map` insertion semantics). -/
def groupByAddrTx (events : List WalletEvent) :
    List ((String × String) × List WalletEvent) :=
  events.foldl (fun groups ev =>
    let key := (ev.address, ev.txHash)
    match lookupMap groups key with
    | some g => mapSet groups key (g ++ [ev])
    | none => mapSet groups key [ev]) []

/-- Per-subscriber body of `Notifier.notify`: gate on
`hasActiveSubscription`; inactive chats get at most one expiry notice per
session; active chats get the group's message and their expiry flag is
cleared. -/
def notifySubscriber (paidSubs : List PaidSubscriptionDoc) (now : Int)
    (firstEv : WalletEvent) (acc : List Int × List Msg) (chatId : Int) :
    List Int × List Msg :=
  let (expiredNotified, msgs) := acc
  if hasActiveSubscription paidSubs now chatId then
    (expiredNotified.erase chatId,
     msgs ++ [⟨chatId, .walletNotification firstEv.address firstEv.txHash⟩])
  else if chatId ∈ expiredNotified then (expiredNotified, msgs)
  else (expiredNotified ++ [chatId], msgs ++ [⟨chatId, .expiryNotice⟩])

/-- Per-group body of `Notifier.notify`. -/
def notifyGroup (store : Store) (paidSubs : List PaidSubscriptionDoc) (now : Int)
    (acc : List Int × List Msg) (group : List WalletEvent) : List Int × List Msg :=
  match group.head? with
  | none => acc
  | some firstEv =>
    let subscribers := getChatIdsForAddress store firstEv.address
    subscribers.foldl
      (fun acc p => notifySubscriber paidSubs now firstEv acc p.1) acc

/-- `Notifier.notify`: group, then dispatch under the subscription gate.
Returns the new session `expiredNotified` set and the messages sent
(failed `sendMessage` calls are logged and swallowed in the source, so a
message is recorded for every attempted send). -/
def notify (store : Store) (paidSubs : List PaidSubscriptionDoc) (now : Int)
    (expiredNotified : List Int) (events : List WalletEvent) :
    List Int × List Msg :=
  (groupByAddrTx events).foldl
    (fun acc g => notifyGroup store paidSubs now acc g.2) (expiredNotified, [])

-- ─── BlockPoller.processPriceChanges ─────────────────────────────────────────

/-- A token-watch subscription (`TokenSubscription`). -/
structure TokenSubscription where
  id : String
  chatId : Int
  contractAddress : String
  label : String
  priceThresholdPct : Int
  minReservationSats : Int
deriving DecidableEq, Repr

/-- `TokenRepository.getSubscribersForToken`. -/
def getSubscribersForToken (tokenSubs : List TokenSubscription)
    (contractAddress : String) : List TokenSubscription :=
  tokenSubs.filter (fun s => decide (s.contractAddress = contractAddress))

/-- `BlockPoller.processPriceChanges`: for every price change and every
watcher of the token whose threshold is met, send a price alert.  Note
that no subscription-liveness check occurs on this path. -/
def processPriceChanges (tokenSubs : List TokenSubscription)
    (priceChanges : List PriceChangeDoc) : List Msg :=
  priceChanges.foldl (fun msgs pc =>
    (getSubscribersForToken tokenSubs pc.tokenContract).foldl (fun msgs sub =>
      if sub.priceThresholdPct ≤ 0 ∨ pc.deltaPct < sub.priceThresholdPct then msgs
      else msgs ++ [⟨sub.chatId, .priceAlert pc.tokenContract pc.deltaPct⟩]) msgs) []

-- ─── track.ts: the /track command ────────────────────────────────────────────

/-- Outcome of the track command (replies modelled by their cause). -/
inductive TrackOutcome where
  | rejectedDuplicateIdentity (existingAddress : String)
  | added
  | duplicate
  | limitExceeded
deriving DecidableEq, Repr

/-- `trackCommand` from the address-validation point on (format validation
is an external library call on the raw text and precedes everything
modelled here; `resolution` is the outcome of the synchronous MLDSA
resolution, `none` when the RPC failed or returned no owner — in the
source a successful resolution always sets `mldsaHash`). -/
def trackCommand (store : Store) (chatId : Int) (address label : String)
    (maxPerUser : Nat) (newId createdAt : String)
    (resolution : Option LinkedAddresses) : Store × TrackOutcome :=
  let dupCheck :=
    match resolution.bind (·.mldsaHash) with
    | some h =>
      match findSubscriptionByMldsaHash store h with
      | some existing =>
        if existing.address ≠ address then some existing.address else none
      | none => none
    | none => none
  match dupCheck with
  | some existingAddress => (store, .rejectedDuplicateIdentity existingAddress)
  | none =>
    let (store, result) := addSubscription store chatId address label maxPerUser newId createdAt
    match result with
    | .added =>
      let store := match resolution with
        | some linkedResult => updateLinkedAddresses store address linkedResult
        | none => store
      (store, .added)
    | .duplicate => (store, .duplicate)
    | .limitExceeded => (store, .limitExceeded)

-- ─── BlockPoller: resolver and UTXO seeding ──────────────────────────────────

/-- The owner record obtained from `getPublicKeyInfo`, after hex
serialisation of the hash and the per-form derivations (each derivation
throws independently in the source, so each is an `Option`). -/
structure OwnerInfoModel where
  mldsaHash : String
  tweakedPubkey : Option String := none
  p2op : Option String := none
  p2tr : Option String := none
  p2wpkh : Option String := none
  p2pkh : Option String := none
  csv1 : Option String := none
deriving DecidableEq, Repr

/-- A UTXO as returned by `provider.utxoManager.getUTXOs`
(`transactionId` / `outputIndex` / `value`). -/
structure UTXOTriple where
  txid : String
  vout : Nat
  value : Int
deriving DecidableEq, Repr

/-- The working maps of one poll (trackedSet, mldsaMap, canonicalMap). -/
structure AddressMaps where
  trackedSet : List String
  mldsaMap : List (String × String)
  canonicalMap : List (String × String)
deriving Repr

/-- One address of `BlockPoller.resolveAndCacheLinked`: on owner data,
extend the in-progress maps with every derived form and the hex
identities, and persist the linkage. -/
def resolveOneLinked (owner : Option OwnerInfoModel) (addr : String)
    (acc : AddressMaps × Store) : AddressMaps × Store :=
  match owner with
  | none => acc
  | some owner =>
    let (maps, store) := acc
    let mldsaHash := owner.mldsaHash
    let mldsaMap := mapSet maps.mldsaMap addr mldsaHash
    let extraStep := fun (acc2 : List String × List (String × String)) (extra : Option String) =>
      match extra with
      | some e => if e ≠ addr then (addSet acc2.1 e, mapSet acc2.2 e addr) else acc2
      | none => acc2
    let (trackedSet, canonicalMap) :=
      [owner.p2tr, owner.p2wpkh, owner.p2pkh, owner.csv1, owner.p2op].foldl extraStep
        (maps.trackedSet, maps.canonicalMap)
    let hexStep := fun (acc2 : List String × List (String × String)) (hex : Option String) =>
      match hex with
      | some h =>
        (addSet (addSet acc2.1 h) ("0x" ++ h),
         mapSet (mapSet acc2.2 h addr) ("0x" ++ h) addr)
      | none => acc2
    let (trackedSet, canonicalMap) :=
      [some mldsaHash, owner.tweakedPubkey].foldl hexStep (trackedSet, canonicalMap)
    let store := updateLinkedAddresses store addr
      ⟨some mldsaHash, owner.tweakedPubkey, owner.p2op, owner.p2tr,
       owner.p2wpkh, owner.p2pkh, owner.csv1⟩
    (⟨trackedSet, mldsaMap, canonicalMap⟩, store)

/-- `BlockPoller.resolveAndCacheLinked` for the primaries with no stored
hash (`getPublicKeyInfo` is the RPC oracle; RPC failures and absent owner
records both leave the address untouched).  The source resolves the
addresses concurrently but each touches only its own subscription and its
own map keys; modelled in list order. -/
def resolveAndCacheLinked (getPublicKeyInfo : String → Option OwnerInfoModel)
    (primaryAddrs : List String) (maps : AddressMaps) (store : Store) :
    AddressMaps × Store :=
  let unresolved := primaryAddrs.filter (fun a => (lookupMap maps.mldsaMap a).isNone)
  unresolved.foldl (fun acc addr => resolveOneLinked (getPublicKeyInfo addr) addr acc)
    (maps, store)

/-- One address of `BlockPoller.populateUTXOs`: query the primary and
every linked form (errors per address type yield no UTXOs) and bulk-store
the union. -/
def populateOneUTXOSet (getUTXOsFor : String → Bool → List UTXOTriple)
    (store : Store) (primaryAddr : String) : Store :=
  let linked := getLinkedAddressesFor store primaryAddr
  let addresses : List (String × Bool) :=
    [(primaryAddr, false)]
    ++ (match linked.bind (·.p2tr) with
        | some t => if t ≠ primaryAddr then [(t, false)] else []
        | none => [])
    ++ (match linked.bind (·.p2wpkh) with
        | some w => [(w, false)]
        | none => [])
    ++ (match linked.bind (·.p2pkh) with
        | some p => [(p, false)]
        | none => [])
    ++ (match linked.bind (·.csv1) with
        | some c => [(c, true)]
        | none => [])
  let allUTXOs := addresses.foldl
    (fun acc p => acc ++ getUTXOsFor p.1 p.2) []
  setUTXOs store primaryAddr (allUTXOs.map (fun u => ⟨u.txid, u.vout, u.value⟩))

/-- `BlockPoller.populateUTXOs` over the not-yet-populated primaries;
returns the updated populated set and store. -/
def populateUTXOs (getUTXOsFor : String → Bool → List UTXOTriple)
    (utxoPopulated : List String) (primaryAddrs : List String) (store : Store) :
    List String × Store :=
  let unpopulated := primaryAddrs.filter (fun a => decide (a ∉ utxoPopulated))
  unpopulated.foldl
    (fun acc addr =>
      (addSet acc.1 addr, populateOneUTXOSet getUTXOsFor acc.2 addr))
    (utxoPopulated, store)

-- ─── BlockPoller.processNewBlocks: the tick ──────────────────────────────────

/-- The scanner output destructured by the tick
(events, receivedUTXOs, spentUTXOKeys, inferredSends; shape per §4.4 of
the design — the scanner itself lives outside the modelled fragment and is
an oracle of the tick). -/
structure ScanOut where
  events : List WalletEvent := []
  receivedUTXOs : List ReceivedUTXO := []
  spentUTXOKeys : List (String × Nat) := []
  inferredSends : List InferredSend := []
deriving DecidableEq, Repr

/-- External-world oracle of one tick: every awaited call of
`processNewBlocks`, plus the read-only repository data living outside the
JSON store (paid subscriptions, token watches, the NFT contract set). -/
structure TickEnv where
  fetchEvents : Nat → Except Unit EventsResponse
  getPublicKeyInfo : String → Option OwnerInfoModel
  getUTXOsFor : String → Bool → List UTXOTriple
  scanBlock : Nat → Except Unit ScanOut
  notifyThrows : Bool
  paidSubs : List PaidSubscriptionDoc := []
  tokenSubs : List TokenSubscription := []
  nftContractSet : List String := []
  now : Int := 0

/-- In-process poller session state. -/
structure PollerState where
  notifiedTxHashes : List String := []
  utxoPopulated : List String := []
  expiredNotified : List Int := []
deriving DecidableEq, Repr

/-- Result of one `processNewBlocks` call.  `aborted` is true exactly when
an exception escaped to `poll` (here: a notifier failure); `dispatched`
are the events handed to the notifier. -/
structure TickResult where
  st : PollerState
  store : Store
  msgs : List Msg := []
  dispatched : List WalletEvent := []
  aborted : Bool := false
deriving Repr

/-- The per-height BTC scanning loop (the source walks heights in batches
of ten, which visits every height in order; a failed scan warns every
authorized chat and skips the block, a successful one applies the UTXO
delta to the store and the in-memory map). -/
def scanHeightsLoop (env : TickEnv) (heights : List Nat)
    (store : Store) (utxoMap : List ((String × Nat) × (String × Int))) :
    Store × List ((String × Nat) × (String × Int)) × List WalletEvent ×
      List InferredSend × List Msg :=
  heights.foldl (fun acc height =>
    match env.scanBlock height with
    | .error _ =>
      (acc.1, acc.2.1, acc.2.2.1, acc.2.2.2.1,
       acc.2.2.2.2 ++ acc.1.authorizedChats.map (fun c => ⟨c, .scanWarning height⟩))
    | .ok out =>
      let afterSpent := out.spentUTXOKeys.foldl
        (fun (acc2 : Store × List ((String × Nat) × (String × Int))) key =>
          (removeUTXO acc2.1 key.1 key.2, eraseKey acc2.2 key)) (acc.1, acc.2.1)
      let afterRecv := out.receivedUTXOs.foldl
        (fun (acc2 : Store × List ((String × Nat) × (String × Int))) u =>
          (addUTXO acc2.1 u.primaryAddress u.txid u.vout u.value,
           mapSet acc2.2 (u.txid, u.vout) (u.primaryAddress, u.value))) afterSpent
      (afterRecv.1, afterRecv.2, acc.2.2.1 ++ out.events,
       acc.2.2.2.1 ++ out.inferredSends, acc.2.2.2.2))
    (store, utxoMap, [], [], [])

/-- The body of the tick once the indexer responded with new work and the
tracked set is non-empty. -/
def runTickCore (env : TickEnv) (st : PollerState) (store : Store)
    (data : EventsResponse) (savedLastBlock : Option Nat) (since : Nat) :
    TickResult :=
  let lastIndexedBlock := data.lastIndexedBlock
  let trackedAddrs := getAllTrackedAddresses store
  -- Build expanded address sets and resolve gaps
  let expanded := getExpandedAddressData store
  let resolved := resolveAndCacheLinked env.getPublicKeyInfo trackedAddrs
    ⟨expanded.1, expanded.2.1, expanded.2.2⟩ store
  let maps := resolved.1
  let store1 := resolved.2
  -- Pre-populate UTXO store
  let populated := populateUTXOs env.getUTXOsFor st.utxoPopulated trackedAddrs store1
  let st1 := { st with utxoPopulated := populated.1 }
  let store2 := populated.2
  let utxoMap := buildUTXOMap store2
  -- Indexer events → WalletEvents
  let matched := matchTransfers store2 data.transfers maps.mldsaMap env.nftContractSet
  let store3 := matched.1
  let tokenEvents := matched.2
  let reservationEvents :=
    matchReservations data.reservations maps.mldsaMap maps.trackedSet maps.canonicalMap
  let swapEvents := matchSwaps data.swaps maps.mldsaMap maps.trackedSet maps.canonicalMap
  let poolEvents := matchPoolEvents data.poolEvents maps.mldsaMap
  let stakingEvents := matchStakingEvents data.stakingEvents maps.mldsaMap
  -- BTC scanning via RPC
  let lastProcessed := savedLastBlock.getD (since - 1)
  let btcFrom := max 1 (lastProcessed + 1)
  let btcTo := lastIndexedBlock
  let heights := List.range' btcFrom (btcTo + 1 - btcFrom)
  let scanned := scanHeightsLoop env heights store3 utxoMap
  let store4 := scanned.1
  let warnings := scanned.2.2.2.2
  -- Promote inferred sends to btc_sent
  let btcEvents := promoteInferredSends scanned.2.2.1 scanned.2.2.2.1
  -- Merge and deduplicate
  let allEvents := tokenEvents ++ reservationEvents ++ swapEvents ++ poolEvents
    ++ stakingEvents ++ btcEvents
  -- BTC suppression
  let suppressBtcAddrBlocks := buildSuppressSet swapEvents reservationEvents
    poolEvents stakingEvents tokenEvents
  let dedupedEvents := applySuppression suppressBtcAddrBlocks (dedupEvents allEvents)
  -- Filter out already-notified, dispatch, record, prune
  let newEvents := filterNotNotified st1.notifiedTxHashes dedupedEvents
  let afterNotify : Option (PollerState × List Msg) :=
    if newEvents = [] then some (st1, [])
    else if env.notifyThrows then none
    else
      let sent := notify store4 env.paidSubs env.now st1.expiredNotified newEvents
      some ({ st1 with
                expiredNotified := sent.1,
                notifiedTxHashes := updateNotified st1.notifiedTxHashes newEvents },
            sent.2)
  match afterNotify with
  | none =>
    -- the notifier threw: the exception aborts the tick before the cursor write
    { st := st1, store := store4, msgs := warnings, dispatched := newEvents,
      aborted := true }
  | some fin =>
    -- Price alerts
    let priceMsgs :=
      if data.priceChanges = [] then []
      else processPriceChanges env.tokenSubs data.priceChanges
    { st := fin.1, store := setLastProcessedBlock store4 lastIndexedBlock,
      msgs := warnings ++ fin.2 ++ priceMsgs, dispatched := newEvents }

/-- The `since` parameter of the indexer call computed from the cursor. -/
def tickSince (store : Store) : Nat :=
  match store.lastProcessedBlock with
  | some b => max 1 (b + 1)
  | none => 1

/-- `BlockPoller.processNewBlocks`: one full tick. -/
def processNewBlocks (env : TickEnv) (st : PollerState) (store : Store) : TickResult :=
  let savedLastBlock := store.lastProcessedBlock
  let since := tickSince store
  match env.fetchEvents since with
  | .error _ => { st := st, store := store }
  | .ok data =>
    let lastIndexedBlock := data.lastIndexedBlock
    if (match savedLastBlock with
        | some b => decide (lastIndexedBlock ≤ b)
        | none => false) then
      { st := st, store := store }
    else
      let trackedAddrs := getAllTrackedAddresses store
      if trackedAddrs = [] then
        { st := st, store := setLastProcessedBlock store lastIndexedBlock }
      else
        runTickCore env st store data savedLastBlock since

-- ─── Spec-side predicates and claim-statement helpers ────────────────────────

/-- Address of an output that the receive pass keeps: its resolved output
address, provided it is tracked. -/
def keptOutput (trackedAddresses : List String) (o : TxOutput) : Option String :=
  match outputAddress o.scriptPubKey with
  | some a => if a ∈ trackedAddresses then some a else none
  | none => none

/-- Spec reading of the suppression set (claim C2 and §4.6 step 7 of the
spec): like `buildSuppressSet`, but with the in/out pairing restricted to
events of type token, as the claim's wording says.  This definition
follows the spec's words and exists to be compared with
`buildSuppressSet`, which is translated from the code. -/
def specSuppressSet (swapEvents reservationEvents poolEvents stakingEvents
    tokenEvents : List WalletEvent) : List String :=
  let s := swapEvents.foldl (addKeyIf swapKeySel) []
  let s := reservationEvents.foldl (addKeyIf allKeySel) s
  let s := poolEvents.foldl (addKeyIf allKeySel) s
  let s := stakingEvents.foldl (addKeyIf allKeySel) s
  let tokenInKeys := tokenEvents.foldl (addKeyIf fun ev =>
    match ev with
    | .token _ _ _ .dirIn .. => some (sKey ev.address ev.blockHeight)
    | _ => none) []
  let tokenOutKeys := tokenEvents.foldl (addKeyIf fun ev =>
    match ev with
    | .token _ _ _ .dirOut .. => some (sKey ev.address ev.blockHeight)
    | _ => none) []
  tokenInKeys.foldl (addKeyIf (interKeySel tokenOutKeys)) s

/-- The MLDSA hash carried by a subscription's linkage, if any. -/
def linkageHash (s : Subscription) : Option String :=
  s.linkedAddresses.bind (·.mldsaHash)

/-- Claim C6's invariant: no two subscriptions of the same chat carry the
same linkage hash. -/
def mldsaUniquePerChat (store : Store) : Prop :=
  store.subscriptions.Pairwise (fun s1 s2 =>
    ¬ (s1.chatId = s2.chatId ∧ (linkageHash s1).isSome
        ∧ linkageHash s1 = linkageHash s2))

/-- The (txid, vout) key of a stored UTXO. -/
def utxoKey (u : StoredUTXO) : String × Nat := (u.txid, u.vout)

/-- Per-address key uniqueness of the stored UTXO lists. -/
def utxoKeysNodupPerAddress (store : Store) : Prop :=
  ∀ p ∈ store.utxos, (p.2.map utxoKey).Nodup

/-- Number of expiry notices addressed to a chat in a message list. -/
def expiryCount (msgs : List Msg) (c : Int) : Nat :=
  (msgs.filter (fun m => decide (m = ⟨c, .expiryNotice⟩))).length

/-- Invariant of the notifier's dispatch loops, over the running
(expiredNotified, messages) pair: every emitted wallet notification went
to a chat with an active subscription, every expiry notice went to an
inactive chat not yet flagged at the start of the call; inactive chats
flagged at the start stay flagged; and no chat ever accumulates more than
one expiry notice. -/
def notifyInv (paid : List PaidSubscriptionDoc) (now : Int) (st0 : List Int)
    (acc : List Int × List Msg) : Prop :=
  (∀ m ∈ acc.2,
     (∀ a t, m.kind = .walletNotification a t →
        hasActiveSubscription paid now m.chatId = true)
     ∧ (m.kind = .expiryNotice →
        hasActiveSubscription paid now m.chatId = false ∧ m.chatId ∉ st0))
  ∧ (∀ c, c ∈ st0 → hasActiveSubscription paid now c = false → c ∈ acc.1)
  ∧ (∀ c, hasActiveSubscription paid now c = false →
      expiryCount acc.2 c ≤ 1 ∧ (expiryCount acc.2 c = 1 → c ∈ acc.1))
  ∧ (∀ c, hasActiveSubscription paid now c = true → expiryCount acc.2 c = 0)

-- ─── Concrete instances used by counterexamples and witnesses ────────────────

/-- Tick environment for claim C1: scanning block 6 fails, everything else
succeeds, the indexer has advanced to block 7. -/
def c1Env : TickEnv :=
  { fetchEvents := fun _ => .ok { lastIndexedBlock := 7 },
    getPublicKeyInfo := fun _ => none,
    getUTXOsFor := fun _ _ => [],
    scanBlock := fun h => if h = 6 then .error () else .ok {},
    notifyThrows := false }

/-- Store for claim C1: one tracked address, cursor at block 5. -/
def c1Store : Store :=
  { subscriptions := [⟨"id1", 1, "A", "A", "", none⟩], lastProcessedBlock := some 5 }

/-- Transfer-matcher output for claim C2: an NFT in and an NFT out for the
same wallet in the same block. -/
def c2TokenEvents : List WalletEvent :=
  [.nft_transfer "t1" 5 "a" .dirIn "c" 1 "x",
   .nft_transfer "t2" 5 "a" .dirOut "c" 1 "y"]

/-- A raw BTC spend of the same wallet in the same block, for claim C2. -/
def c2BtcEvent : WalletEvent := .btc_sent "t3" 5 "a" 100 none none

/-- Token watch of chat 7 on contract C with a 5 percent threshold, for
claim C3. -/
def c3TokenSub : TokenSubscription := ⟨"tw1", 7, "C", "L", 5, 0⟩

/-- A 10 percent price move on contract C, for claim C3. -/
def c3PriceChange : PriceChangeDoc :=
  { tokenContract := "C", oldPrice := 1, newPrice := 2, deltaPct := 10,
    direction := .up, virtualBTCReserve := 1, virtualTokenReserve := 1,
    blockHeight := 1 }

/-- Tick environment for claim C3: no chat has a paid subscription, chat 7
watches token C, and the indexer reports the price move. -/
def c3Env : TickEnv :=
  { fetchEvents := fun _ => .ok { lastIndexedBlock := 1, priceChanges := [c3PriceChange] },
    getPublicKeyInfo := fun _ => none,
    getUTXOsFor := fun _ _ => [],
    scanBlock := fun _ => .ok {},
    notifyThrows := false,
    paidSubs := [],
    tokenSubs := [c3TokenSub] }

/-- Store for claim C3: some chat tracks a wallet so the tick proceeds. -/
def c3Store : Store := { subscriptions := [⟨"id9", 9, "A", "A", "", none⟩] }

/-- Store for the claim C3 witness: chat 5 tracks address A. -/
def c3wStore : Store := { subscriptions := [⟨"id5", 5, "A", "A", "", none⟩] }

/-- Paid subscriptions for the claim C3 witness: chat 5 is active at
time 0. -/
def c3wPaid : List PaidSubscriptionDoc := [⟨5, "w", "t", 100, 0⟩]

/-- A wallet event on address A for the claim C3 witness. -/
def c3wEvent : WalletEvent := .btc_received "t" 1 "A" 1 none

/-- Scanner BTC events for the claim C4 witness. -/
def c4Evs : List WalletEvent := [.btc_sent "h1" 1 "A" 5 none none]

/-- Inferred sends for the claim C4 witness: one already covered by hash,
one new. -/
def c4Infs : List InferredSend :=
  [⟨"h1", 1, "A", 9, none, none⟩, ⟨"h2", 1, "B", 7, some "X", some 3⟩]

/-- Fixed character for building pairwise-distinct tx hashes. -/
def aChar : Char := Char.ofNat 97

/-- The n-th synthetic tx hash: a string of n copies of one character
(distinct hashes of distinct lengths). -/
def hsHash (n : Nat) : String := String.mk (List.replicate n aChar)

/-- 1001 distinct events dispatched in one tick, for claim C5. -/
def c5Events : List WalletEvent :=
  (List.range 1001).map (fun n => .btc_received (hsHash n) 1 "A" 1 none)

/-- The tx hashes of `c5Events`. -/
def c5Hashes : List String := (List.range 1001).map hsHash

/-- A later-tick event re-using the oldest hash, for claim C5. -/
def c5Again : WalletEvent := .btc_received (hsHash 0) 2 "A" 1 none

/-- RPC owner oracle for claim C6: both tracked addresses of chat 42
resolve to the same identity hash. -/
def c6Resolve : String → Option OwnerInfoModel := fun a =>
  if a = "addrA" ∨ a = "addrB" then some { mldsaHash := "aa" } else none

/-- Claim C6, step 1: chat 42 tracks addrA while resolution is down. -/
def c6Store1 : Store := (trackCommand {} 42 "addrA" "A" 20 "id1" "" none).1

/-- Claim C6, step 2: chat 42 tracks addrB, resolution still down. -/
def c6Store2 : Store := (trackCommand c6Store1 42 "addrB" "B" 20 "id2" "" none).1

/-- Claim C6, step 3: the next tick's resolver fills both linkages with
the same hash, exactly as `processNewBlocks` invokes it. -/
def c6Store3 : Store :=
  let (trackedSet, mldsaMap, canonicalMap) := getExpandedAddressData c6Store2
  (resolveAndCacheLinked c6Resolve (getAllTrackedAddresses c6Store2)
    ⟨trackedSet, mldsaMap, canonicalMap⟩ c6Store2).2

/-- Output for the claim C7 witness: one tracked alias output. -/
def c7Tx : BlockTx :=
  { hash := "tx7",
    outputs := [⟨⟨some "alias1", none⟩, 500, 0⟩, ⟨⟨some "other", none⟩, 7, 1⟩] }

/-- Store with the same key stored under two primaries, for claim C8. -/
def c8Store : Store := addUTXO (addUTXO {} "A" "t" 0 5) "B" "t" 0 5

/-- Subscription-repository state for claims C9 and C10: one unused code
and an existing paid subscription of chat 7. -/
def c9State : SubsState :=
  { accessCodes :=
      [{ code := "JT-X", walletAddress := "w", txHash := "tx", used := false,
         createdAt := 5, codeExpiresAt := 10, subscriptionDays := 30 }],
    paidSubs := [⟨7, "oldw", "oldtx", 3, 1⟩] }

/-- State after chat 7 redeems the code of `c9State` at time 1. -/
def c9After : SubsState := (redeemCode c9State "JT-X" 7 1).2

-- ─── Helper lemmas ───────────────────────────────────────────────────────────

theorem foldl_preserve {P : β → Prop} (step : β → α → β)
    (h : ∀ b a, P b → P (step b a)) :
    ∀ (l : List α) (b : β), P b → P (l.foldl step b)
  | [], _, hb => hb
  | a :: l, b, hb => foldl_preserve step h l (step b a) (h b a hb)

theorem mem_addSet [DecidableEq α] (s : List α) (x y : α) :
    y ∈ addSet s x ↔ y ∈ s ∨ y = x := by
  unfold addSet
  split
  · rename_i hx
    constructor
    · exact Or.inl
    · rintro (hy | rfl)
      · exact hy
      · exact hx
  · simp

theorem mem_foldl_addKeyIf (sel : α → Option String) :
    ∀ (l : List α) (acc : List String) (x : String),
      x ∈ l.foldl (addKeyIf sel) acc ↔ x ∈ acc ∨ ∃ e ∈ l, sel e = some x := by
  intro l
  induction l with
  | nil => simp
  | cons a l ih =>
    intro acc x
    rw [List.foldl_cons, ih]
    unfold addKeyIf
    cases ha : sel a with
    | none =>
      simp only [List.mem_cons]
      constructor
      · rintro (h | ⟨e, he, hse⟩)
        · exact Or.inl h
        · exact Or.inr ⟨e, Or.inr he, hse⟩
      · rintro (h | ⟨e, (rfl | he), hse⟩)
        · exact Or.inl h
        · rw [ha] at hse; cases hse
        · exact Or.inr ⟨e, he, hse⟩
    | some k =>
      rw [mem_addSet]
      simp only [List.mem_cons]
      constructor
      · rintro ((h | rfl) | ⟨e, he, hse⟩)
        · exact Or.inl h
        · exact Or.inr ⟨a, Or.inl rfl, ha⟩
        · exact Or.inr ⟨e, Or.inr he, hse⟩
      · rintro (h | ⟨e, (rfl | he), hse⟩)
        · exact Or.inl (Or.inl h)
        · rw [ha] at hse
          exact Or.inl (Or.inr (Option.some_injective _ hse).symm)
        · exact Or.inr ⟨e, he, hse⟩

theorem lookupMap_eq_some_mem [DecidableEq α] {m : List (α × β)} {k : α} {v : β}
    (h : lookupMap m k = some v) : (k, v) ∈ m := by
  unfold lookupMap at h
  cases hf : m.find? (fun p => decide (p.1 = k)) with
  | none => rw [hf] at h; cases h
  | some p =>
    rw [hf] at h
    have hp := List.find?_some hf
    have hmem := List.mem_of_find?_eq_some hf
    have h1 : p.1 = k := of_decide_eq_true hp
    have h2 : p.2 = v := Option.some_injective _ h
    have : p = (k, v) := Prod.ext h1 h2
    rwa [this] at hmem

theorem mem_mapSet [DecidableEq α] (m : List (α × β)) (k : α) (v : β) :
    ∀ p ∈ mapSet m k v, p = (k, v) ∨ p ∈ m := by
  induction m with
  | nil => intro p hp; simp [mapSet] at hp; simp [hp]
  | cons q m ih =>
    intro p hp
    unfold mapSet at hp
    split at hp
    · rcases List.mem_cons.1 hp with rfl | h
      · exact Or.inl rfl
      · exact Or.inr (List.mem_cons_of_mem _ h)
    · rcases List.mem_cons.1 hp with rfl | h
      · exact Or.inr (List.mem_cons_self _ _)
      · rcases ih p h with h' | h'
        · exact Or.inl h'
        · exact Or.inr (List.mem_cons_of_mem _ h')

theorem promote_fold (hashes : List String) :
    ∀ (infs : List InferredSend) (acc : List WalletEvent),
      infs.foldl (fun acc inf =>
          if inf.txHash ∈ hashes then acc else acc ++ [inferredToBtcSent inf]) acc
        = acc ++ (infs.filter
            (fun inf => decide (inf.txHash ∉ hashes))).map inferredToBtcSent := by
  intro infs
  induction infs with
  | nil => simp
  | cons inf infs ih =>
    intro acc
    rw [List.foldl_cons]
    by_cases h : inf.txHash ∈ hashes
    · rw [if_pos h, ih, List.filter_cons_of_neg]
      simp [h]
    · rw [if_neg h, ih, List.filter_cons_of_pos (by simp [h])]
      simp [List.append_assoc]

theorem btcSentHashSel_eq_some (ev : WalletEvent) (x : String) :
    btcSentHashSel ev = some x ↔ ev.etype = "btc_sent" ∧ ev.txHash = x := by
  cases ev <;>
    simp [btcSentHashSel, WalletEvent.etype, WalletEvent.txHash, eq_comm]

/-- Claim C4: the inferred-send promotion appends, in order, one
`btc_sent` event per inferred send whose tx hash has no confirmed
`btc_sent` among the scanner's BTC events (address, satoshis,
counterparty and recipientAmount taken from the inferred record), and
drops exactly the inferred sends whose hash is already covered. -/
theorem claim_C4 (btcEvents : List WalletEvent) (infs : List InferredSend) :
    promoteInferredSends btcEvents infs
      = btcEvents ++ (infs.filter
          (fun inf => decide (inf.txHash ∉ btcSentHashes btcEvents))).map inferredToBtcSent
    ∧ ∀ h, h ∈ btcSentHashes btcEvents ↔
        ∃ ev ∈ btcEvents, ev.etype = "btc_sent" ∧ ev.txHash = h := by
  constructor
  · unfold promoteInferredSends
    exact promote_fold (btcSentHashes btcEvents) infs btcEvents
  · intro h
    unfold btcSentHashes
    rw [mem_foldl_addKeyIf]
    simp [btcSentHashSel_eq_some]

/-- Witness for claim C4 at a concrete input: the covered inferred send is
dropped, the uncovered one is promoted with its fields. -/
theorem claim_C4_witness :
    promoteInferredSends c4Evs c4Infs
      = c4Evs ++ [WalletEvent.btc_sent "h2" 1 "B" 7 (some "X") (some 3)] := by
  rw [(claim_C4 c4Evs c4Infs).1]
  decide

theorem nodup_keys_concat (l : List StoredUTXO) (txid : String) (vout : Nat) (value : Int)
    (hn : (l.map utxoKey).Nodup)
    (hfresh : ∀ u ∈ l, ¬ (u.txid = txid ∧ u.vout = vout)) :
    ((l ++ [StoredUTXO.mk txid vout value]).map utxoKey).Nodup := by
  rw [List.map_append, List.nodup_append]
  refine ⟨hn, List.nodup_singleton _, ?_⟩
  intro p hp hq
  simp only [List.map_cons, List.map_nil, List.mem_singleton] at hq
  rcases List.mem_map.1 hp with ⟨u, hu, rfl⟩
  exact hfresh u hu ⟨congrArg Prod.fst hq, congrArg Prod.snd hq⟩

/-- Claim C8 (amended): removal by key deletes every occurrence of a
(txid, vout) across all primary addresses, and `addUTXO` preserves key
uniqueness within each address's own list — the code never checks other
addresses' lists, so cross-address uniqueness is not enforced. -/
theorem claim_C8_amended (store : Store) (txid : String) (vout : Nat) :
    (∀ p ∈ (removeUTXO store txid vout).utxos, ∀ u ∈ p.2,
        ¬ (u.txid = txid ∧ u.vout = vout))
    ∧ (∀ primary value, utxoKeysNodupPerAddress store →
        utxoKeysNodupPerAddress (addUTXO store primary txid vout value)) := by
  constructor
  · intro p hp u hu
    simp only [removeUTXO] at hp
    rcases List.mem_map.1 hp with ⟨q, _, rfl⟩
    have := List.of_mem_filter hu
    exact of_decide_eq_true this
  · intro primary value h
    unfold utxoKeysNodupPerAddress at h ⊢
    simp only [addUTXO]
    split
    · exact h
    · rename_i hany
      intro p hp
      rcases mem_mapSet _ _ _ p hp with rfl | hm
      · have hfresh : ∀ u ∈ (lookupMap store.utxos primary).getD [],
            ¬ (u.txid = txid ∧ u.vout = vout) := by
          intro u hu hc
          exact hany (List.any_eq_true.2 ⟨u, hu, decide_eq_true hc⟩)
        have hn : (((lookupMap store.utxos primary).getD []).map utxoKey).Nodup := by
          cases hl : lookupMap store.utxos primary with
          | none => simp
          | some l =>
            have := lookupMap_eq_some_mem hl
            simpa using h (primary, l) this
        exact nodup_keys_concat _ txid vout value hn hfresh
      · exact h p hm

/-- Witness for claim C8's amended statement at the two-primary store. -/
theorem claim_C8_witness :
    utxoKeysNodupPerAddress c8Store
    ∧ (∀ p ∈ (removeUTXO c8Store "t" 0).utxos, ∀ u ∈ p.2,
        ¬ (u.txid = "t" ∧ u.vout = 0))
    ∧ utxoKeysNodupPerAddress (addUTXO c8Store "C" "t" 0 5) :=
  ⟨by unfold utxoKeysNodupPerAddress; decide, (claim_C8_amended c8Store "t" 0).1,
   (claim_C8_amended c8Store "t" 0).2 "C" 5 (by unfold utxoKeysNodupPerAddress; decide)⟩

/-- Counterexample for claim C8 as stated: two `addUTXO` calls (as issued
for two different canonical primaries) store the same (txid, vout) key
under two different primary addresses. -/
theorem claim_C8_cex :
    (lookupMap c8Store.utxos "A").getD [] = [⟨"t", 0, 5⟩]
    ∧ (lookupMap c8Store.utxos "B").getD [] = [⟨"t", 0, 5⟩]
    ∧ ("A" : String) ≠ "B" := by decide

theorem findCode_markUsed (code : String) (chat : Int) :
    ∀ (l : List AccessCodeDoc) (doc : AccessCodeDoc),
      findCode l code = some doc →
      findCode (markUsed l code chat) code
        = some { doc with used := true, redeemedBy := some chat } := by
  intro l
  induction l with
  | nil => intro doc h; simp [findCode] at h
  | cons d rest ih =>
    intro doc h
    by_cases hd : d.code = code
    · unfold findCode at h
      rw [List.find?_cons_of_pos _ (by simpa using hd)] at h
      have hdoc : d = doc := Option.some_injective _ h
      subst hdoc
      unfold markUsed
      rw [if_pos hd]
      unfold findCode
      rw [List.find?_cons_of_pos _ (by simpa using hd)]
    · unfold findCode at h
      rw [List.find?_cons_of_neg _ (by simpa using hd)] at h
      unfold markUsed
      rw [if_neg hd]
      unfold findCode
      rw [List.find?_cons_of_neg _ (by simpa using hd)]
      exact ih doc h

/-- Claim C9 (amended): a code can be redeemed successfully at most once —
after any successful redemption, every further redeem of the same code,
by any chat (including the one that redeemed it) and at any time, returns
the already-redeemed error and leaves both collections unchanged.
Repetition by the redeeming chat is thus not idempotent in outcome: it
fails where the first call succeeded. -/
theorem redeem_of_used (s : SubsState) (code : String) (chat : Int) (now : Int)
    (doc : AccessCodeDoc) (hf : findCode s.accessCodes code = some doc)
    (hu : doc.used = true) :
    redeemCode s code chat now = (.failure .alreadyRedeemed, s) := by
  simp [redeemCode, hf, hu]

theorem claim_C9_amended (s : SubsState) (code : String) (chat : Int) (now : Int)
    (e : Int) (w : String) (s' : SubsState)
    (h : redeemCode s code chat now = (.success e w, s'))
    (chat2 : Int) (now2 : Int) :
    redeemCode s' code chat2 now2 = (.failure .alreadyRedeemed, s') := by
  cases hf : findCode s.accessCodes code with
  | none =>
    simp only [redeemCode, hf] at h
    simp at h
  | some doc =>
    simp only [redeemCode, hf] at h
    cases hu : doc.used with
    | true =>
      rw [if_pos (by simp [hu])] at h
      simp at h
    | false =>
      rw [if_neg (by simp [hu])] at h
      by_cases hx : doc.codeExpiresAt < now
      · rw [if_pos hx] at h; simp at h
      · rw [if_neg hx] at h
        simp only [Prod.mk.injEq] at h
        obtain ⟨-, h2⟩ := h
        have hfc : findCode s'.accessCodes code
            = some { doc with used := true, redeemedBy := some chat } := by
          rw [← h2]
          exact findCode_markUsed code chat s.accessCodes doc hf
        exact redeem_of_used s' code chat2 now2 _ hfc rfl

/-- Witness for claim C9's amended statement: chat 7 redeems the concrete
code successfully; a repeat by chat 8 (and likewise any chat) fails with
the already-redeemed error and changes nothing. -/
theorem claim_C9_witness :
    redeemCode c9State "JT-X" 7 1 = (.success 2592000001 "w", c9After)
    ∧ redeemCode c9After "JT-X" 8 99 = (.failure .alreadyRedeemed, c9After) :=
  ⟨by decide,
   claim_C9_amended c9State "JT-X" 7 1 2592000001 "w" c9After (by decide) 8 99⟩

/-- Counterexample for claim C9 as stated: the same chat repeating its own
redeem does not get the outcome of its first call — the first call
succeeds, the repeat fails with the already-redeemed error. -/
theorem claim_C9_cex :
    (redeemCode c9State "JT-X" 7 1).1 = .success 2592000001 "w"
    ∧ (redeemCode (redeemCode c9State "JT-X" 7 1).2 "JT-X" 7 2).1
        = .failure .alreadyRedeemed := by decide

theorem findPaid_upsertPaid (chat : Int) (w t : String) (e n : Int) :
    ∀ l : List PaidSubscriptionDoc,
      findPaid (upsertPaid l chat w t e n) chat = some ⟨chat, w, t, e, n⟩ := by
  intro l
  induction l with
  | nil =>
    unfold upsertPaid findPaid
    rw [List.find?_cons_of_pos _ (by simp)]
  | cons p rest ih =>
    unfold upsertPaid
    by_cases hp : p.chatId = chat
    · rw [if_pos hp]
      unfold findPaid
      rw [List.find?_cons_of_pos _ (by simp)]
    · rw [if_neg hp]
      unfold findPaid
      rw [List.find?_cons_of_neg _ (by simpa using hp)]
      exact ih

/-- Claim C10: when a chat that already holds a paid subscription redeems
a valid, unused, unexpired code, the stored subscription for the chat
becomes exactly (redemption time + subscriptionDays days, the code's
wallet address and tx hash, createdAt = redemption time) — the previous
expiry is overwritten, not extended, whatever it was. -/
theorem claim_C10 (s : SubsState) (code : String) (chat : Int) (now : Int)
    (doc : AccessCodeDoc) (pOld : PaidSubscriptionDoc)
    (hfind : findCode s.accessCodes code = some doc)
    (hused : doc.used = false)
    (hexp : ¬ doc.codeExpiresAt < now)
    (_hpaid : findPaid s.paidSubs chat = some pOld) :
    (redeemCode s code chat now).1
      = .success (now + doc.subscriptionDays * msPerDay) doc.walletAddress
    ∧ findPaid (redeemCode s code chat now).2.paidSubs chat
      = some ⟨chat, doc.walletAddress, doc.txHash,
          now + doc.subscriptionDays * msPerDay, now⟩ := by
  unfold redeemCode
  rw [hfind]
  simp [hused, hexp, findPaid_upsertPaid]

/-- Witness for claim C10: chat 7 held a subscription expiring at 3; after
redeeming the 30-day code at time 1 its record is exactly
(expiry 2592000001, the code's wallet and tx hash, createdAt 1). -/
theorem claim_C10_witness :
    findPaid c9State.paidSubs 7 = some ⟨7, "oldw", "oldtx", 3, 1⟩
    ∧ (redeemCode c9State "JT-X" 7 1).1 = .success 2592000001 "w"
    ∧ findPaid (redeemCode c9State "JT-X" 7 1).2.paidSubs 7
        = some ⟨7, "w", "tx", 2592000001, 1⟩ := by
  refine ⟨by decide, ?_, ?_⟩
  · exact (claim_C10 c9State "JT-X" 7 1
      { code := "JT-X", walletAddress := "w", txHash := "tx", used := false,
        createdAt := 5, codeExpiresAt := 10, subscriptionDays := 30 }
      ⟨7, "oldw", "oldtx", 3, 1⟩
      (by decide) (by decide) (by decide) (by decide)).1
  · exact (claim_C10 c9State "JT-X" 7 1
      { code := "JT-X", walletAddress := "w", txHash := "tx", used := false,
        createdAt := 5, codeExpiresAt := 10, subscriptionDays := 30 }
      ⟨7, "oldw", "oldtx", 3, 1⟩
      (by decide) (by decide) (by decide) (by decide)).2

theorem swapKeySel_eq_some (ev : WalletEvent) (x : String) :
    swapKeySel ev = some x ↔
      ev.etype = "swap_executed" ∧ sKey ev.address ev.blockHeight = x := by
  cases ev <;>
    simp [swapKeySel, WalletEvent.etype, WalletEvent.address, WalletEvent.blockHeight]

theorem allKeySel_eq_some (ev : WalletEvent) (x : String) :
    allKeySel ev = some x ↔ sKey ev.address ev.blockHeight = x := by
  simp [allKeySel]

theorem tokenDirKeySel_eq_some (d : Dir) (ev : WalletEvent) (x : String) :
    tokenDirKeySel d ev = some x ↔
      ev.directionOf = some d ∧ sKey ev.address ev.blockHeight = x := by
  unfold tokenDirKeySel
  split <;> rename_i hd
  · simp [hd]
  · simp [hd]

theorem interKeySel_eq_some (out : List String) (k x : String) :
    interKeySel out k = some x ↔ k ∈ out ∧ k = x := by
  unfold interKeySel
  split <;> rename_i hk
  · simp [hk]
  · simp [hk]

theorem suppressSet_mem (swapEvents reservationEvents poolEvents stakingEvents
    tokenEvents : List WalletEvent) (k : String) :
    k ∈ buildSuppressSet swapEvents reservationEvents poolEvents stakingEvents
        tokenEvents ↔
      (∃ ev ∈ swapEvents, ev.etype = "swap_executed"
          ∧ sKey ev.address ev.blockHeight = k)
      ∨ (∃ ev ∈ reservationEvents, sKey ev.address ev.blockHeight = k)
      ∨ (∃ ev ∈ poolEvents, sKey ev.address ev.blockHeight = k)
      ∨ (∃ ev ∈ stakingEvents, sKey ev.address ev.blockHeight = k)
      ∨ ((∃ ev ∈ tokenEvents, ev.directionOf = some .dirIn
            ∧ sKey ev.address ev.blockHeight = k)
         ∧ (∃ ev ∈ tokenEvents, ev.directionOf = some .dirOut
            ∧ sKey ev.address ev.blockHeight = k)) := by
  unfold buildSuppressSet
  simp only [mem_foldl_addKeyIf, List.not_mem_nil, false_or,
    swapKeySel_eq_some, allKeySel_eq_some, tokenDirKeySel_eq_some,
    interKeySel_eq_some]
  constructor
  · rintro ((((h | h) | h) | h) | ⟨e, hin, hout, rfl⟩)
    · exact Or.inl h
    · exact Or.inr (Or.inl h)
    · exact Or.inr (Or.inr (Or.inl h))
    · exact Or.inr (Or.inr (Or.inr (Or.inl h)))
    · exact Or.inr (Or.inr (Or.inr (Or.inr ⟨hin, hout⟩)))
  · rintro (h | h | h | h | ⟨hin, hout⟩)
    · exact Or.inl (Or.inl (Or.inl (Or.inl h)))
    · exact Or.inl (Or.inl (Or.inl (Or.inr h)))
    · exact Or.inl (Or.inl (Or.inr h))
    · exact Or.inl (Or.inr h)
    · exact Or.inr ⟨k, hin, hout, rfl⟩

theorem applySuppression_eq (s : List String) (evs : List WalletEvent) :
    applySuppression s evs = evs.filter (fun ev =>
      !(ev.isBtc && decide (sKey ev.address ev.blockHeight ∈ s))) := by
  unfold applySuppression
  split
  · rename_i hs
    subst hs
    symm
    apply List.filter_eq_self.2
    intro ev _
    simp
  · rfl

/-- Claim C2 (amended): the suppression step removes exactly the
`btc_sent`/`btc_received` events whose (address, blockHeight) key lies in
the built set; that set contains exactly the keys of every swap_executed
event, every reservation event, every pool event, every staking event,
and every key with both an inbound and an outbound event among the
transfer matcher's output — where the in/out pairing counts `token` and
`nft_transfer` events alike, not only `token` ones; events that are not
BTC events all survive. -/
theorem claim_C2_amended (swapEvents reservationEvents poolEvents stakingEvents
    tokenEvents dedupedEvents : List WalletEvent) :
    applySuppression (buildSuppressSet swapEvents reservationEvents poolEvents
        stakingEvents tokenEvents) dedupedEvents
      = dedupedEvents.filter (fun ev =>
          !(ev.isBtc && decide (sKey ev.address ev.blockHeight
            ∈ buildSuppressSet swapEvents reservationEvents poolEvents
                stakingEvents tokenEvents)))
    ∧ (∀ k, k ∈ buildSuppressSet swapEvents reservationEvents poolEvents
          stakingEvents tokenEvents ↔
        (∃ ev ∈ swapEvents, ev.etype = "swap_executed"
            ∧ sKey ev.address ev.blockHeight = k)
        ∨ (∃ ev ∈ reservationEvents, sKey ev.address ev.blockHeight = k)
        ∨ (∃ ev ∈ poolEvents, sKey ev.address ev.blockHeight = k)
        ∨ (∃ ev ∈ stakingEvents, sKey ev.address ev.blockHeight = k)
        ∨ ((∃ ev ∈ tokenEvents, ev.directionOf = some .dirIn
              ∧ sKey ev.address ev.blockHeight = k)
           ∧ (∃ ev ∈ tokenEvents, ev.directionOf = some .dirOut
              ∧ sKey ev.address ev.blockHeight = k)))
    ∧ (∀ ev ∈ applySuppression (buildSuppressSet swapEvents reservationEvents
          poolEvents stakingEvents tokenEvents) dedupedEvents,
        ev.isBtc = true →
          sKey ev.address ev.blockHeight ∉ buildSuppressSet swapEvents
            reservationEvents poolEvents stakingEvents tokenEvents)
    ∧ (∀ ev ∈ dedupedEvents, ev.isBtc = false →
        ev ∈ applySuppression (buildSuppressSet swapEvents reservationEvents
          poolEvents stakingEvents tokenEvents) dedupedEvents) := by
  refine ⟨applySuppression_eq _ _,
    suppressSet_mem swapEvents reservationEvents poolEvents stakingEvents tokenEvents,
    ?_, ?_⟩
  · intro ev hev hbtc
    rw [applySuppression_eq] at hev
    have := List.of_mem_filter hev
    simp [hbtc] at this
    exact this
  · intro ev hev hbtc
    rw [applySuppression_eq]
    apply List.mem_filter.2
    exact ⟨hev, by simp [hbtc]⟩

/-- Witness for claim C2's amended statement: a swap at (a,5) suppresses
nothing at (b,9), so the unrelated BTC event survives and its key is
provably outside the set. -/
theorem claim_C2_witness :
    (WalletEvent.btc_sent "t9" 9 "b" 1 none none)
        ∈ applySuppression (buildSuppressSet
            [WalletEvent.swap_executed "t" 5 "a" "c" 1 2] [] [] [] [])
            [WalletEvent.btc_sent "t9" 9 "b" 1 none none]
    ∧ sKey "b" 9 ∉ buildSuppressSet
        [WalletEvent.swap_executed "t" 5 "a" "c" 1 2] [] [] [] [] :=
  ⟨by decide,
   (claim_C2_amended [WalletEvent.swap_executed "t" 5 "a" "c" 1 2] [] [] [] []
      [WalletEvent.btc_sent "t9" 9 "b" 1 none none]).2.2.1
     (WalletEvent.btc_sent "t9" 9 "b" 1 none none) (by decide) rfl⟩

/-- Counterexample for claim C2 as stated: an NFT in plus an NFT out at
(a,5) — no swap, reservation, pool, staking or token event — makes the
code suppress the BTC spend at (a,5), although the claim's suppression
set, built from token-in/token-out events only, does not contain that
key: filtering by the claim's set would have kept the event. -/
theorem claim_C2_cex :
    applySuppression (buildSuppressSet [] [] [] [] c2TokenEvents) [c2BtcEvent] = []
    ∧ sKey c2BtcEvent.address c2BtcEvent.blockHeight
        ∉ specSuppressSet [] [] [] [] c2TokenEvents
    ∧ [c2BtcEvent].filter (fun ev =>
        !(ev.isBtc && decide (sKey ev.address ev.blockHeight
          ∈ specSuppressSet [] [] [] [] c2TokenEvents))) = [c2BtcEvent] := by
  decide

theorem receive_foldl (tracked : List String) (canonical : List (String × String))
    (txh : String) (bh : Nat) (sender : Option String) :
    ∀ (outs : List TxOutput) (acc : List WalletEvent × List ReceivedUTXO),
      outs.foldl (receiveStep tracked canonical txh bh sender) acc
        = (acc.1 ++ outs.filterMap (fun o => (keptOutput tracked o).map (fun a =>
              WalletEvent.btc_received txh bh ((lookupMap canonical a).getD a)
                o.value sender)),
           acc.2 ++ outs.filterMap (fun o => (keptOutput tracked o).map (fun a =>
              (⟨(lookupMap canonical a).getD a, txh, o.index, o.value⟩ :
                ReceivedUTXO)))) := by
  intro outs
  induction outs with
  | nil => intro acc; simp
  | cons o outs ih =>
    intro acc
    rw [List.foldl_cons, ih]
    simp only [List.filterMap_cons]
    cases ho : outputAddress o.scriptPubKey with
    | none => simp [receiveStep, keptOutput, ho]
    | some addr =>
      by_cases ht : addr ∈ tracked
      · simp [receiveStep, keptOutput, ho, ht, List.append_assoc]
      · simp [receiveStep, keptOutput, ho, ht]

/-- Claim C7: the receive pass emits, for exactly the outputs whose
address is tracked, a `btc_received` whose address is the canonical
primary of the output address when the latter is a linked alias (and the
output address itself otherwise), and records the received UTXO under
that same canonical address with the output's value and index; an alias
with a canonical primary is never the attributed address. -/
theorem claim_C7 (tracked : List String) (canonical : List (String × String))
    (blockHeight : Nat) (tx : BlockTx) :
    (receivePass tracked canonical blockHeight tx).1
      = tx.outputs.filterMap (fun o => (keptOutput tracked o).map (fun a =>
          WalletEvent.btc_received tx.hash blockHeight
            ((lookupMap canonical a).getD a) o.value (txSenderAddr tx)))
    ∧ (receivePass tracked canonical blockHeight tx).2
      = tx.outputs.filterMap (fun o => (keptOutput tracked o).map (fun a =>
          (⟨(lookupMap canonical a).getD a, tx.hash, o.index, o.value⟩ :
            ReceivedUTXO)))
    ∧ (∀ o ∈ tx.outputs, ∀ a, keptOutput tracked o = some a →
        ∀ p, lookupMap canonical a = some p →
          (WalletEvent.btc_received tx.hash blockHeight
            ((lookupMap canonical a).getD a) o.value (txSenderAddr tx)).address
            = p) := by
  refine ⟨?_, ?_, ?_⟩
  · unfold receivePass
    rw [receive_foldl]
    simp
  · unfold receivePass
    rw [receive_foldl]
    simp
  · intro o _ a _ p hp
    simp [hp, WalletEvent.address]

/-- Witness for claim C7: the tracked alias output of the concrete
transaction is attributed to its canonical primary, the untracked output
is dropped, and the recorded UTXO carries the same primary. -/
theorem claim_C7_witness :
    (receivePass ["alias1"] [("alias1", "primary1")] 3 c7Tx).1
      = [WalletEvent.btc_received "tx7" 3 "primary1" 500 none]
    ∧ (receivePass ["alias1"] [("alias1", "primary1")] 3 c7Tx).2
      = [⟨"primary1", "tx7", 0, 500⟩]
    ∧ (WalletEvent.btc_received "tx7" 3
        ((lookupMap [("alias1", "primary1")] "alias1").getD "alias1") 500
        (txSenderAddr c7Tx)).address = "primary1" := by
  refine ⟨?_, ?_, ?_⟩
  · rw [(claim_C7 ["alias1"] [("alias1", "primary1")] 3 c7Tx).1]
    decide
  · rw [(claim_C7 ["alias1"] [("alias1", "primary1")] 3 c7Tx).2.1]
    decide
  · exact (claim_C7 ["alias1"] [("alias1", "primary1")] 3 c7Tx).2.2
      ⟨⟨some "alias1", none⟩, 500, 0⟩ (by decide) "alias1" (by decide)
      "primary1" (by decide)

theorem filterNotNotified_nil (evs : List WalletEvent) :
    filterNotNotified [] evs = evs := by
  unfold filterNotNotified
  apply List.filter_eq_self.2
  intro e _
  simp

theorem foldl_addNotified_fresh :
    ∀ (evs : List WalletEvent) (acc : List String),
      (evs.map WalletEvent.txHash).Nodup →
      (∀ e ∈ evs, e.txHash ∉ acc) →
      evs.foldl (fun s e => addNotified s e.txHash) acc
        = acc ++ evs.map WalletEvent.txHash := by
  intro evs
  induction evs with
  | nil => intro acc _ _; simp
  | cons e evs ih =>
    intro acc hnd hfresh
    have hnd0 : (e.txHash :: evs.map WalletEvent.txHash).Nodup := by
      simpa only [List.map_cons] using hnd
    have hnd' := List.nodup_cons.1 hnd0
    rw [List.foldl_cons]
    have he : e.txHash ∉ acc := hfresh e (List.mem_cons_self _ _)
    have hstep : addNotified acc e.txHash = acc ++ [e.txHash] := by
      simp [addNotified, he]
    rw [hstep, ih (acc ++ [e.txHash]) hnd'.2]
    · simp
    · intro e' he'
      simp only [List.mem_append, List.mem_singleton]
      rintro (h | h)
      · exact hfresh e' (List.mem_cons_of_mem _ he') h
      · exact hnd'.1 (h ▸ List.mem_map_of_mem WalletEvent.txHash he')

theorem hsHash_injective : Function.Injective hsHash := by
  intro m n h
  have := congrArg String.length h
  simpa [hsHash, String.length] using this

theorem c5Events_map : c5Events.map WalletEvent.txHash = c5Hashes := by
  unfold c5Events c5Hashes
  rw [List.map_map]
  rfl

theorem c5Hashes_nodup : c5Hashes.Nodup :=
  (List.nodup_range 1001).map hsHash_injective

theorem c5Hashes_length : c5Hashes.length = 1001 := by
  simp [c5Hashes]

theorem c5Events_ne_nil : c5Events ≠ [] := by
  intro h
  have := congrArg List.length h
  simp [c5Events] at this

theorem c5Hashes_prune : pruneNotified c5Hashes = c5Hashes.drop 1 := by
  unfold pruneNotified maxNotifiedTxHashes
  rw [c5Hashes_length]
  norm_num

theorem hsHash_zero_not_mem_drop : hsHash 0 ∉ c5Hashes.drop 1 := by
  intro hmem
  have hd : c5Hashes.drop 1 = ((List.range 1000).map Nat.succ).map hsHash := by
    have : (1001 : Nat) = 1000 + 1 := by norm_num
    rw [c5Hashes, this, List.range_succ_eq_map]
    simp
  rw [hd, List.map_map] at hmem
  rcases List.mem_map.1 hmem with ⟨k, _, hk⟩
  exact Nat.succ_ne_zero k (hsHash_injective hk)

theorem c5_tick1_set : (dispatchStep [] c5Events).2 = c5Hashes.drop 1 := by
  simp only [dispatchStep]
  rw [filterNotNotified_nil, if_neg c5Events_ne_nil]
  dsimp only
  unfold updateNotified
  rw [foldl_addNotified_fresh c5Events [] (c5Events_map ▸ c5Hashes_nodup) (by simp),
    List.nil_append, c5Events_map, c5Hashes_prune]

/-- Counterexample for claim C5 as stated: a tick dispatches 1001 events
with distinct tx hashes; pruning the session set to its cap of 1000 evicts
the oldest hash, and a later tick dispatches an event with that same hash
again within the same process lifetime. -/
theorem claim_C5_cex :
    (dispatchStep [] c5Events).1 = c5Events
    ∧ WalletEvent.btc_received (hsHash 0) 1 "A" 1 none ∈ c5Events
    ∧ c5Again ∈ (dispatchStep (dispatchStep [] c5Events).2 [c5Again]).1
    ∧ c5Again.txHash = hsHash 0 := by
  refine ⟨?_, ?_, ?_, rfl⟩
  · simp only [dispatchStep]
    rw [filterNotNotified_nil, if_neg c5Events_ne_nil]
  · exact List.mem_map_of_mem _ (List.mem_range.2 (by norm_num))
  · rw [c5_tick1_set]
    simp only [dispatchStep]
    have hm : filterNotNotified (c5Hashes.drop 1) [c5Again] = [c5Again] := by
      unfold filterNotNotified
      apply List.filter_eq_self.2
      intro e he
      rcases List.mem_singleton.1 he with rfl
      simpa using hsHash_zero_not_mem_drop
    rw [hm, if_neg (by simp)]
    exact List.mem_singleton.2 rfl

/-- Claim C5 (amended): an event whose tx hash is still in the session set
is never dispatched again; the session set stays within the 1000-entry cap
after each tick (given it was within the cap before); pruning removes the
oldest-inserted entries first — the retained set is a suffix of the
insertion-ordered set — and a hash evicted by the cap can be re-dispatched
by a later tick. -/
theorem claim_C5_amended (notified : List String) (dedupedEvents : List WalletEvent) :
    (∀ ev ∈ (dispatchStep notified dedupedEvents).1, ev.txHash ∉ notified)
    ∧ (notified.length ≤ maxNotifiedTxHashes →
        (dispatchStep notified dedupedEvents).2.length ≤ maxNotifiedTxHashes)
    ∧ List.IsSuffix (dispatchStep notified dedupedEvents).2
        ((filterNotNotified notified dedupedEvents).foldl
          (fun s e => addNotified s e.txHash) notified) := by
  refine ⟨?_, ?_, ?_⟩
  · intro ev hev
    simp only [dispatchStep] at hev
    split at hev
    · simp at hev
    · have := List.of_mem_filter hev
      exact of_decide_eq_true this
  · intro hlen
    simp only [dispatchStep]
    split
    · exact hlen
    · dsimp only
      unfold updateNotified pruneNotified
      split
      · rename_i hgt
        rw [List.length_drop]
        omega
      · rename_i hle
        omega
  · simp only [dispatchStep]
    split
    · rename_i hempty
      rw [hempty]
      simp
    · dsimp only
      unfold updateNotified pruneNotified
      split
      · exact List.drop_suffix _ _
      · exact List.suffix_refl _

/-- Witness for claim C5's amended statement on a small input: with hash x
remembered, only the y event is dispatched and the set stays within cap. -/
theorem claim_C5_witness :
    (["x"] : List String).length ≤ maxNotifiedTxHashes
    ∧ (∀ ev ∈ (dispatchStep ["x"]
        [WalletEvent.btc_received "x" 1 "A" 1 none,
         WalletEvent.btc_received "y" 1 "A" 1 none]).1, ev.txHash ∉ ["x"])
    ∧ (dispatchStep ["x"]
        [WalletEvent.btc_received "x" 1 "A" 1 none,
         WalletEvent.btc_received "y" 1 "A" 1 none]).2.length
        ≤ maxNotifiedTxHashes :=
  ⟨by decide,
   (claim_C5_amended ["x"]
     [WalletEvent.btc_received "x" 1 "A" 1 none,
      WalletEvent.btc_received "y" 1 "A" 1 none]).1,
   (claim_C5_amended ["x"]
     [WalletEvent.btc_received "x" 1 "A" 1 none,
      WalletEvent.btc_received "y" 1 "A" 1 none]).2.1 (by decide)⟩

theorem expiryCount_append (msgs : List Msg) (m : Msg) (c : Int) :
    expiryCount (msgs ++ [m]) c
      = expiryCount msgs c + (if m = ⟨c, .expiryNotice⟩ then 1 else 0) := by
  unfold expiryCount
  rw [List.filter_append, List.length_append]
  congr 1
  by_cases hm : m = ⟨c, .expiryNotice⟩
  · simp [hm]
  · simp [hm]

theorem notifySubscriber_inv (paid : List PaidSubscriptionDoc) (now : Int)
    (st0 : List Int) (fe : WalletEvent) :
    ∀ (acc : List Int × List Msg) (d : Int),
      notifyInv paid now st0 acc →
      notifyInv paid now st0 (notifySubscriber paid now fe acc d) := by
  rintro ⟨st, msgs⟩ d ⟨hq, hsub, hcnt, hact0⟩
  simp only [notifyInv] at hq hsub hcnt hact0 ⊢
  unfold notifySubscriber
  dsimp only
  by_cases hact : hasActiveSubscription paid now d = true
  · rw [if_pos hact]
    refine ⟨?_, ?_, ?_, ?_⟩
    · intro m hm
      rcases List.mem_append.1 hm with hm | hm
      · exact hq m hm
      · rcases List.mem_singleton.1 hm with rfl
        refine ⟨fun a t _ => hact, fun hk => by simp at hk⟩
    · intro c hc hcf
      have hne : c ≠ d := fun h => by rw [h, hact] at hcf; cases hcf
      exact (List.mem_erase_of_ne hne).2 (hsub c hc hcf)
    · intro c hcf
      have hne : c ≠ d := fun h => by rw [h, hact] at hcf; cases hcf
      have hcount : expiryCount
          (msgs ++ [⟨d, .walletNotification fe.address fe.txHash⟩]) c
          = expiryCount msgs c := by
        rw [expiryCount_append]
        simp
      rw [hcount]
      exact ⟨(hcnt c hcf).1,
        fun h1 => (List.mem_erase_of_ne hne).2 ((hcnt c hcf).2 h1)⟩
    · intro c hct
      rw [expiryCount_append]
      simp [hact0 c hct]
  · rw [if_neg hact]
    have hactf : hasActiveSubscription paid now d = false := by
      cases h : hasActiveSubscription paid now d
      · rfl
      · exact absurd h hact
    by_cases hmem : d ∈ st
    · rw [if_pos hmem]
      exact ⟨hq, hsub, hcnt, hact0⟩
    · rw [if_neg hmem]
      refine ⟨?_, ?_, ?_, ?_⟩
      · intro m hm
        rcases List.mem_append.1 hm with hm | hm
        · exact hq m hm
        · rcases List.mem_singleton.1 hm with rfl
          exact ⟨fun a t hk => by simp at hk,
            fun _ => ⟨hactf, fun hd0 => hmem (hsub d hd0 hactf)⟩⟩
      · intro c hc hcf
        exact List.mem_append_left _ (hsub c hc hcf)
      · intro c hcf
        by_cases hcd : c = d
        · subst hcd
          have h1 := (hcnt c hcf).1
          have h2 := (hcnt c hcf).2
          have h0 : expiryCount msgs c = 0 := by
            by_contra hne0
            have : expiryCount msgs c = 1 := by omega
            exact hmem (h2 this)
          rw [expiryCount_append, if_pos rfl, h0]
          exact ⟨le_refl 1,
            fun _ => List.mem_append_right _ (List.mem_singleton.2 rfl)⟩
        · have hcount : expiryCount (msgs ++ [⟨d, .expiryNotice⟩]) c
              = expiryCount msgs c := by
            rw [expiryCount_append,
              if_neg (fun h => hcd ((congrArg Msg.chatId h).symm))]
            omega
          rw [hcount]
          exact ⟨(hcnt c hcf).1,
            fun h1 => List.mem_append_left _ ((hcnt c hcf).2 h1)⟩
      · intro c hct
        have hne : ¬ ((⟨d, .expiryNotice⟩ : Msg) = ⟨c, .expiryNotice⟩) := by
          simp only [Msg.mk.injEq]
          rintro ⟨rfl, -⟩
          rw [hactf] at hct
          cases hct
        rw [expiryCount_append, if_neg hne, hact0 c hct]

theorem notifyGroup_inv (store : Store) (paid : List PaidSubscriptionDoc)
    (now : Int) (st0 : List Int) :
    ∀ (acc : List Int × List Msg) (group : List WalletEvent),
      notifyInv paid now st0 acc →
      notifyInv paid now st0 (notifyGroup store paid now acc group) := by
  intro acc group h
  unfold notifyGroup
  cases group.head? with
  | none => exact h
  | some fe =>
    exact foldl_preserve _
      (fun b p hb => notifySubscriber_inv paid now st0 fe b p.1 hb) _ acc h

theorem notify_inv (store : Store) (paid : List PaidSubscriptionDoc) (now : Int)
    (st0 : List Int) (events : List WalletEvent) :
    notifyInv paid now st0 (notify store paid now st0 events) := by
  unfold notify
  apply foldl_preserve _
    (fun b g hb => notifyGroup_inv store paid now st0 b g.2 hb) _ (st0, [])
  refine ⟨?_, ?_, ?_, ?_⟩
  · intro m hm; simp at hm
  · intro c hc _; exact hc
  · intro c _
    refine ⟨by simp [expiryCount], fun h => by simp [expiryCount] at h⟩
  · intro c _; simp [expiryCount]

/-- Claim C3 (amended): every message the Notifier itself sends is gated —
a wallet notification goes only to a chat whose `hasActiveSubscription`
check returned true, and an expiry notice goes only to an inactive chat
not already flagged this session, at most once per chat per call.  Price
alerts, however, are dispatched by `processPriceChanges` to token-watch
subscribers with no subscription check at all (see the counterexample),
as are the per-block scan-failure warnings. -/
theorem claim_C3_amended (store : Store) (paidSubs : List PaidSubscriptionDoc)
    (now : Int) (expiredNotified : List Int) (events : List WalletEvent) :
    (∀ m ∈ (notify store paidSubs now expiredNotified events).2,
       (∀ a t, m.kind = .walletNotification a t →
          hasActiveSubscription paidSubs now m.chatId = true)
       ∧ (m.kind = .expiryNotice →
          hasActiveSubscription paidSubs now m.chatId = false
          ∧ m.chatId ∉ expiredNotified))
    ∧ (∀ c, expiryCount (notify store paidSubs now expiredNotified events).2 c ≤ 1) := by
  obtain ⟨hq, hsub, hcnt, hact⟩ := notify_inv store paidSubs now expiredNotified events
  refine ⟨hq, ?_⟩
  intro c
  cases hc : hasActiveSubscription paidSubs now c
  · exact (hcnt c hc).1
  · rw [hact c hc]
    omega

/-- Witness for claim C3's amended statement: the active chat 5 receives
its wallet notification, and the theorem yields the positive gate check. -/
theorem claim_C3_witness :
    (⟨5, .walletNotification "A" "t"⟩ : Msg)
        ∈ (notify c3wStore c3wPaid 0 [] [c3wEvent]).2
    ∧ hasActiveSubscription c3wPaid 0 5 = true :=
  ⟨by decide,
   ((claim_C3_amended c3wStore c3wPaid 0 [] [c3wEvent]).1
     ⟨5, .walletNotification "A" "t"⟩ (by decide)).1 "A" "t" rfl⟩

/-- Counterexample for claim C3 as stated: a full tick sends a price alert
to chat 7, which has no paid subscription (the paid table is empty), and
the message is not an expiry notice — price alerts bypass the
subscription gate. -/
theorem claim_C3_cex :
    (⟨7, .priceAlert "C" 10⟩ : Msg) ∈ (processNewBlocks c3Env {} c3Store).msgs
    ∧ hasActiveSubscription c3Env.paidSubs c3Env.now 7 = false
    ∧ (MsgKind.priceAlert "C" 10) ≠ MsgKind.expiryNotice :=
  ⟨by decide, by decide, by decide⟩

theorem lastPB_addTokenContract (store : Store) (w c : String) :
    (addTokenContract store w c).lastProcessedBlock = store.lastProcessedBlock := by
  unfold addTokenContract
  dsimp only
  split <;> rfl

theorem lastPB_addUTXO (store : Store) (p t : String) (v : Nat) (value : Int) :
    (addUTXO store p t v value).lastProcessedBlock = store.lastProcessedBlock := by
  unfold addUTXO
  dsimp only
  split <;> rfl

theorem lastPB_resolveOneLinked (owner : Option OwnerInfoModel) (addr : String)
    (acc : AddressMaps × Store) :
    (resolveOneLinked owner addr acc).2.lastProcessedBlock
      = acc.2.lastProcessedBlock := by
  cases owner with
  | none => rfl
  | some o => rfl

theorem lastPB_resolveAndCacheLinked (f : String → Option OwnerInfoModel)
    (addrs : List String) (maps : AddressMaps) (store : Store) :
    (resolveAndCacheLinked f addrs maps store).2.lastProcessedBlock
      = store.lastProcessedBlock := by
  unfold resolveAndCacheLinked
  exact foldl_preserve _
    (fun b a hb => (lastPB_resolveOneLinked (f a) a b).trans hb) _ _ rfl

theorem lastPB_populateUTXOs (f : String → Bool → List UTXOTriple)
    (up : List String) (addrs : List String) (store : Store) :
    (populateUTXOs f up addrs store).2.lastProcessedBlock
      = store.lastProcessedBlock := by
  unfold populateUTXOs
  apply foldl_preserve
    (P := fun acc : List String × Store =>
      acc.2.lastProcessedBlock = store.lastProcessedBlock)
  · intro b a hb
    exact hb
  · rfl

theorem lastPB_matchTransfers (store : Store) (ts : List TransferDoc)
    (mm : List (String × String)) (nft : List String) :
    (matchTransfers store ts mm nft).1.lastProcessedBlock
      = store.lastProcessedBlock := by
  unfold matchTransfers
  apply foldl_preserve
    (P := fun acc : Store × List WalletEvent =>
      acc.1.lastProcessedBlock = store.lastProcessedBlock)
  · intro b t hb
    apply foldl_preserve
      (P := fun acc : Store × List WalletEvent =>
        acc.1.lastProcessedBlock = store.lastProcessedBlock)
    · intro b2 p hb2
      dsimp only
      split
      · exact hb2
      · exact (lastPB_addTokenContract b2.1 p.1 t.contractAddress).trans hb2
    · exact hb
  · rfl

theorem lastPB_scanHeightsLoop (env : TickEnv) (heights : List Nat)
    (store : Store) (um : List ((String × Nat) × (String × Int))) :
    (scanHeightsLoop env heights store um).1.lastProcessedBlock
      = store.lastProcessedBlock := by
  unfold scanHeightsLoop
  apply foldl_preserve
    (P := fun acc : Store × List ((String × Nat) × (String × Int)) ×
        List WalletEvent × List InferredSend × List Msg =>
      acc.1.lastProcessedBlock = store.lastProcessedBlock)
  · intro b height hb
    dsimp only
    cases env.scanBlock height with
    | error e => exact hb
    | ok out =>
      dsimp only
      have h1 : (out.spentUTXOKeys.foldl
          (fun (acc2 : Store × List ((String × Nat) × (String × Int))) key =>
            (removeUTXO acc2.1 key.1 key.2, eraseKey acc2.2 key))
          (b.1, b.2.1)).1.lastProcessedBlock = store.lastProcessedBlock := by
        apply foldl_preserve
          (P := fun acc2 : Store × List ((String × Nat) × (String × Int)) =>
            acc2.1.lastProcessedBlock = store.lastProcessedBlock)
        · intro b2 k hb2
          exact hb2
        · exact hb
      apply foldl_preserve
        (P := fun acc2 : Store × List ((String × Nat) × (String × Int)) =>
          acc2.1.lastProcessedBlock = store.lastProcessedBlock)
      · intro b2 u hb2
        exact (lastPB_addUTXO b2.1 u.primaryAddress u.txid u.vout u.value).trans hb2
      · exact h1
  · rfl

theorem runTickCore_cursor (env : TickEnv) (st : PollerState) (store : Store)
    (data : EventsResponse) (saved : Option Nat) (since : Nat)
    (h : env.notifyThrows = false) :
    (runTickCore env st store data saved since).store.lastProcessedBlock
      = some data.lastIndexedBlock := by
  simp only [runTickCore, h]
  split
  · rename_i heq
    split at heq
    · cases heq
    · rw [if_neg (by simp)] at heq
      cases heq
  · rfl

theorem runTickCore_cases (env : TickEnv) (st : PollerState) (store : Store)
    (data : EventsResponse) (saved : Option Nat) (since : Nat) :
    (runTickCore env st store data saved since).aborted = false
    ∨ (runTickCore env st store data saved since).store.lastProcessedBlock
        = store.lastProcessedBlock := by
  simp only [runTickCore]
  split
  · right
    rw [lastPB_scanHeightsLoop, lastPB_matchTransfers, lastPB_populateUTXOs,
      lastPB_resolveAndCacheLinked]
  · left
    rfl

theorem processNewBlocks_cases (env : TickEnv) (st : PollerState) (store : Store) :
    (processNewBlocks env st store).aborted = false
    ∨ (processNewBlocks env st store).store.lastProcessedBlock
        = store.lastProcessedBlock := by
  simp only [processNewBlocks]
  cases hf : env.fetchEvents (tickSince store) with
  | error e => left; rfl
  | ok data =>
    dsimp only
    by_cases hg : (match store.lastProcessedBlock with
        | some b => decide (data.lastIndexedBlock ≤ b)
        | none => false) = true
    · rw [if_pos hg]
      left
      rfl
    · rw [if_neg hg]
      by_cases ht : getAllTrackedAddresses store = []
      · rw [if_pos ht]
        left
        rfl
      · rw [if_neg ht]
        exact runTickCore_cases env st store data store.lastProcessedBlock
          (tickSince store)

/-- Claim C1 (amended): an indexer fetch failure aborts the tick with
nothing changed, and the cursor is written as the indexer's last block L
whenever the tick reaches its end — in particular even when the RPC scan
of one or more blocks in K+1..L failed, since those failures are caught,
warned about, and the block skipped; only an escaping notifier exception
ends the tick without the cursor write, in which case the persisted
cursor is unchanged. -/
theorem claim_C1_amended (env : TickEnv) (st : PollerState) (store : Store) :
    (env.fetchEvents (tickSince store) = .error () →
       processNewBlocks env st store = { st := st, store := store })
    ∧ (∀ data, env.fetchEvents (tickSince store) = .ok data →
        env.notifyThrows = false →
        (∀ b, store.lastProcessedBlock = some b → b < data.lastIndexedBlock) →
        (processNewBlocks env st store).store.lastProcessedBlock
          = some data.lastIndexedBlock)
    ∧ ((processNewBlocks env st store).aborted = true →
        (processNewBlocks env st store).store.lastProcessedBlock
          = store.lastProcessedBlock) := by
  refine ⟨?_, ?_, ?_⟩
  · intro h
    simp only [processNewBlocks, h]
  · intro data hf hth hlt
    simp only [processNewBlocks, hf]
    rw [if_neg ?grd]
    case grd =>
      cases hb : store.lastProcessedBlock with
      | none => simp
      | some b =>
        have := hlt b hb
        simp only [decide_eq_true_eq]
        omega
    split
    · rfl
    · exact runTickCore_cursor env st store data store.lastProcessedBlock
        (tickSince store) hth
  · intro h
    rcases processNewBlocks_cases env st store with hcase | hcase
    · rw [h] at hcase
      cases hcase
    · exact hcase

/-- Witness for claim C1's amended statement: the concrete tick whose
block-6 scan fails still writes the cursor as 7. -/
theorem claim_C1_witness :
    c1Env.notifyThrows = false
    ∧ (processNewBlocks c1Env {} c1Store).store.lastProcessedBlock = some 7 :=
  ⟨rfl,
   (claim_C1_amended c1Env {} c1Store).2.1 { lastIndexedBlock := 7 } rfl rfl
     (fun b hb => by
       have h : (5 : Nat) = b := Option.some.inj hb
       subst h
       decide)⟩

/-- Counterexample for claim C1 as stated: with the cursor at 5 and the
indexer at 7, the RPC scan of block 6 (inside K+1..L) fails, yet the tick
completes and persists cursor 7 — the failure does not make the tick
return without advancing. -/
theorem claim_C1_cex :
    c1Env.scanBlock 6 = .error ()
    ∧ c1Store.lastProcessedBlock = some 5
    ∧ 5 + 1 ≤ 6 ∧ 6 ≤ 7
    ∧ (processNewBlocks c1Env {} c1Store).store.lastProcessedBlock = some 7
    ∧ (processNewBlocks c1Env {} c1Store).aborted = false :=
  ⟨rfl, rfl, by decide, by decide, by decide, by decide⟩

/-- Claim C6 is a code bug: chat 42 tracks addrA and addrB while MLDSA
resolution is unavailable (both subscriptions are created with no
linkage, and no duplicate-identity check can fire); the next tick's
resolver `resolveAndCacheLinked` then resolves both to the same identity
hash and writes both linkages with no uniqueness check.  The store ends
with two subscriptions of the same chat carrying the same linkage hash,
violating the claimed invariant. -/
theorem claim_C6_bug :
    c6Store3.subscriptions.map linkageHash = [some "aa", some "aa"]
    ∧ c6Store3.subscriptions.map Subscription.chatId = [42, 42]
    ∧ ¬ mldsaUniquePerChat c6Store3 := by
  refine ⟨by decide, by decide, ?_⟩
  unfold mldsaUniquePerChat
  decide
